import Mathlib

/-!
Verification of the generative content completion pipeline of the
Gemma Sullivan project (student-app and tutor-app backends).

Strings from the Python source are modelled as `List Char`.  Python's
`str.find` is modelled by `findSub` (returning `Option Nat` instead of `-1`),
slicing `s[a:b]` by `pySlice`, `str.strip()` by `pyStrip`, `str.lower()` by
`pyLower` (the tags involved are ASCII), and the first match of a lazy
regular expression `<t>(.*?)</t>` under `re.DOTALL` by `reFirstBlockSplit`.
-/

/-- Characters stripped by Python `str.strip()` with no arguments. -/
def pyIsSpace (c : Char) : Bool :=
  c = ' ' || c = '\t' || c = '\n' || c = '\x0d' || c = '\x0b' || c = '\x0c'

/-- Python `str.strip()`: drop whitespace from both ends. -/
def pyStrip (s : List Char) : List Char :=
  ((s.dropWhile pyIsSpace).reverse.dropWhile pyIsSpace).reverse

/-- Python `str.lower()` restricted to the ASCII range used by the tags. -/
def pyLower (s : List Char) : List Char :=
  s.map Char.toLower

/-- Python `hay.find(needle)`: index of the first occurrence of `needle`
as a contiguous substring of `hay`, `none` when absent (Python returns `-1`). -/
def findSub (needle : List Char) : List Char → Option Nat
  | [] => if needle.isPrefixOf ([] : List Char) then some 0 else none
  | c :: rest =>
    if needle.isPrefixOf (c :: rest) then some 0
    else (findSub needle rest).map (· + 1)

/-- Python `hay.find(needle, start)`. -/
def findSubFrom (needle hay : List Char) (start : Nat) : Option Nat :=
  (findSub needle (hay.drop start)).map (· + start)

/-- Python membership test `needle in hay` on strings. -/
def containsSub (needle hay : List Char) : Bool :=
  (findSub needle hay).isSome

/-- Python slice `s[a:b]` for natural indices. -/
def pySlice (s : List Char) (a b : Nat) : List Char :=
  (s.take b).drop a

/-- The literal open tag `<name>`. -/
def openTagOf (name : List Char) : List Char :=
  '<' :: name ++ ['>']

/-- The literal close tag `</name>`. -/
def closeTagOf (name : List Char) : List Char :=
  '<' :: '/' :: name ++ ['>']

/-- First match of the lazy pattern `openT(.*?)closeT` (as in
`re.search(r'<t>(.*?)</t>', s, re.DOTALL)`): scanning left to right, at the
first position where `openT` matches and some occurrence of `closeT` follows,
return the shortest enclosed content together with the remainder of the
input after the close tag. -/
def reFirstBlockSplit (openT closeT : List Char) : List Char → Option (List Char × List Char)
  | [] =>
    if openT.isPrefixOf ([] : List Char) then
      match findSub closeT ([] : List Char) with
      | some _ => some ([], [])
      | none => none
    else none
  | c :: rest =>
    if openT.isPrefixOf (c :: rest) then
      let afterOpen := (c :: rest).drop openT.length
      match findSub closeT afterOpen with
      | some j => some (afterOpen.take j, afterOpen.drop (j + closeT.length))
      | none => reFirstBlockSplit openT closeT rest
    else reFirstBlockSplit openT closeT rest

/-- Group 1 of the first match of `openT(.*?)closeT`. -/
def reSearchBlock (openT closeT hay : List Char) : Option (List Char) :=
  (reFirstBlockSplit openT closeT hay).map Prod.fst

/-- Fuelled worker for `reAllBlocks`; each match consumes at least the open
tag, so fuel `hay.length + 1` is enough to enumerate every match. -/
def reAllBlocksAux (openT closeT : List Char) : Nat → List Char → List (List Char)
  | 0, _ => []
  | fuel + 1, hay =>
    match reFirstBlockSplit openT closeT hay with
    | none => []
    | some (content, rest) => content :: reAllBlocksAux openT closeT fuel rest

/-- All matches of the lazy pattern `openT(.*?)closeT`, as with
`re.finditer(r'<t>(.*?)</t>', s, re.DOTALL)`. -/
def reAllBlocks (openT closeT hay : List Char) : List (List Char) :=
  reAllBlocksAux openT closeT (hay.length + 1) hay

namespace StudentParsers

/-- The student-app `parsers.parse_simple_xml_tag`: locate the literal
`<tag>` and `</tag>` by first occurrence, slice between them, strip, and
fail on absence or empty content. -/
def parse_simple_xml_tag (response_str : List Char) (tag_name : List Char) : Option (List Char) :=
  let start_tag := openTagOf tag_name
  let end_tag := closeTagOf tag_name
  match findSub start_tag response_str, findSub end_tag response_str with
  | some start_index, some end_index =>
    let content := pyStrip (pySlice response_str (start_index + start_tag.length) end_index)
    if content = [] then none else some content
  | _, _ => none

/-- One multiple-choice record as produced by
`_parse_multiple_choice_questions`: the Python dict with keys
`id`, `text`, `options`, `correct_answer` (the constant `type` key is
carried by the Lean type).  `options` is the Python dict in insertion
order, keyed by the strings `a`..`d`. -/
structure McQuestion where
  id : Nat
  text : List Char
  options : List (List Char × List Char)
  correct_answer : List Char
  deriving DecidableEq, Repr

/-- One true/false record: `correct_answer` is the Python boolean
`correct_answer.lower() == 'true'`. -/
structure TfQuestion where
  id : Nat
  text : List Char
  correct_answer : Bool
  deriving DecidableEq, Repr

/-- One fill-blank record (keys `id`, `text`, `correct_answer`). -/
structure FbQuestion where
  id : Nat
  text : List Char
  correct_answer : List Char
  deriving DecidableEq, Repr

/-- One short-answer or free-recall record (keys `id`, `text`,
`sample_answer`). -/
structure OpenQuestion where
  id : Nat
  text : List Char
  sample_answer : List Char
  deriving DecidableEq, Repr

/-- The dict returned by `parse_questions` (key `type` is constant). -/
structure QuestionsResult where
  multiple_choice : List McQuestion
  true_false : List TfQuestion
  fill_blank : List FbQuestion
  short_answer : List OpenQuestion
  free_recall : List OpenQuestion
  total_questions : Nat
  deriving DecidableEq, Repr

/-- The `_validate_multiple_choice_question` rejection reasons, one per
distinct error message in the source. -/
inductive McError where
  | noOptions
  | noAnswer
  | answerNotInOptions
  | emptyOptionContent
  deriving DecidableEq, Repr

/-- First value bound to `key` in a Python dict modelled as an insertion
ordered association list. -/
def dictGet (key : List Char) : List (List Char × List Char) → Option (List Char)
  | [] => none
  | kv :: rest => if kv.1 = key then some kv.2 else dictGet key rest

/-- The student-app `_validate_multiple_choice_question`:
check that options are present, an answer is present, the answer appears
among the option keys, and the chosen option has non-empty content. -/
def _validate_multiple_choice_question (options : List (List Char × List Char))
    (correct_answer : List Char) : Bool × Option McError :=
  if options = [] then (false, some .noOptions)
  else if correct_answer = [] then (false, some .noAnswer)
  else
    match dictGet correct_answer options with
    | none => (false, some .answerNotInOptions)
    | some v => if v = [] then (false, some .emptyOptionContent) else (true, none)

/-- The `<question>` open/close tags used by every category parser. -/
def questionOpen : List Char := "<question>".toList

/-- Closing counterpart of `questionOpen`. -/
def questionClose : List Char := "</question>".toList

/-- Options of one multiple-choice block: `options['a'] = parse(...,"option_a")`
and so on, then `{k: v for k, v in options.items() if v}`; since
`parse_simple_xml_tag` never returns an empty string the filter removes
exactly the `None` entries, preserving insertion order `a`, `b`, `c`, `d`. -/
def mcOptionsOf (option_content : List Char) : List (List Char × List Char) :=
  (["a", "b", "c", "d"].map String.toList).filterMap fun k =>
    match parse_simple_xml_tag option_content ("option_".toList ++ k) with
    | some v => some (k, v)
    | none => none

/-- Parse and validate one `<question>` block of the multiple-choice
category; `i` is the 1-based index of the block among all blocks. -/
def parseMcOne (i : Nat) (question_content : List Char) : Option McQuestion :=
  let text := parse_simple_xml_tag question_content ("text".toList)
  let correct_answer := parse_simple_xml_tag question_content ("answer".toList)
  let options :=
    match reSearchBlock ("<options>".toList) ("</options>".toList) question_content with
    | some option_content => mcOptionsOf option_content
    | none => []
  match text, correct_answer with
  | some t, some ca =>
    if options = [] then none
    else if (_validate_multiple_choice_question options ca).1 then
      some { id := i, text := t, options := options, correct_answer := ca }
    else none
  | _, _ => none

/-- The student-app `_parse_multiple_choice_questions`: iterate the
`<question>` blocks (1-based enumeration), keeping only blocks with all
required fields that pass validation. -/
def _parse_multiple_choice_questions (content : List Char) : List McQuestion :=
  (reAllBlocks questionOpen questionClose content).enum.filterMap fun p =>
    parseMcOne (p.1 + 1) p.2

/-- Parse one `<question>` block of the true/false category (1-based index
`i`): the answer string is coerced with `correct_answer.lower() == 'true'`
and never validated against a vocabulary. -/
def parseTfOne (i : Nat) (question_content : List Char) : Option TfQuestion :=
  match parse_simple_xml_tag question_content ("text".toList),
        parse_simple_xml_tag question_content ("answer".toList) with
  | some t, some ca =>
    some { id := i, text := t, correct_answer := pyLower ca = ("true".toList) }
  | _, _ => none

/-- The student-app `_parse_true_false_questions`. -/
def _parse_true_false_questions (content : List Char) : List TfQuestion :=
  (reAllBlocks questionOpen questionClose content).enum.filterMap fun p =>
    parseTfOne (p.1 + 1) p.2

/-- The student-app `_parse_fill_blank_questions`. -/
def _parse_fill_blank_questions (content : List Char) : List FbQuestion :=
  (reAllBlocks questionOpen questionClose content).enum.filterMap fun p =>
    match parse_simple_xml_tag p.2 ("text".toList),
          parse_simple_xml_tag p.2 ("answer".toList) with
    | some t, some ca => some { id := p.1 + 1, text := t, correct_answer := ca }
    | _, _ => none

/-- The student-app `_parse_short_answer_questions`. -/
def _parse_short_answer_questions (content : List Char) : List OpenQuestion :=
  (reAllBlocks questionOpen questionClose content).enum.filterMap fun p =>
    match parse_simple_xml_tag p.2 ("text".toList),
          parse_simple_xml_tag p.2 ("answer".toList) with
    | some t, some sa => some { id := p.1 + 1, text := t, sample_answer := sa }
    | _, _ => none

/-- The student-app `_parse_free_recall_questions`. -/
def _parse_free_recall_questions (content : List Char) : List OpenQuestion :=
  (reAllBlocks questionOpen questionClose content).enum.filterMap fun p =>
    match parse_simple_xml_tag p.2 ("text".toList),
          parse_simple_xml_tag p.2 ("answer".toList) with
    | some t, some sa => some { id := p.1 + 1, text := t, sample_answer := sa }
    | _, _ => none

/-- The multiple-choice list computed by `parse_questions` for a response. -/
def mcListOf (response_str : List Char) : List McQuestion :=
  match reSearchBlock ("<multiple_choice>".toList) ("</multiple_choice>".toList) response_str with
  | some c => _parse_multiple_choice_questions c
  | none => []

/-- The true/false list computed by `parse_questions` for a response. -/
def tfListOf (response_str : List Char) : List TfQuestion :=
  match reSearchBlock ("<true_false>".toList) ("</true_false>".toList) response_str with
  | some c => _parse_true_false_questions c
  | none => []

/-- The fill-blank list computed by `parse_questions` for a response. -/
def fbListOf (response_str : List Char) : List FbQuestion :=
  match reSearchBlock ("<fill_blank>".toList) ("</fill_blank>".toList) response_str with
  | some c => _parse_fill_blank_questions c
  | none => []

/-- The short-answer list computed by `parse_questions` for a response. -/
def saListOf (response_str : List Char) : List OpenQuestion :=
  match reSearchBlock ("<short_answer>".toList) ("</short_answer>".toList) response_str with
  | some c => _parse_short_answer_questions c
  | none => []

/-- The free-recall list computed by `parse_questions` for a response. -/
def frListOf (response_str : List Char) : List OpenQuestion :=
  match reSearchBlock ("<free_recall>".toList) ("</free_recall>".toList) response_str with
  | some c => _parse_free_recall_questions c
  | none => []

/-- The student-app `parse_questions`: collect the five category lists,
total them, and fail exactly when the total is zero. -/
def parse_questions (response_str : List Char) : Option QuestionsResult :=
  let mc := mcListOf response_str
  let tf := tfListOf response_str
  let fb := fbListOf response_str
  let sa := saListOf response_str
  let fr := frListOf response_str
  let total_questions := mc.length + tf.length + fb.length + sa.length + fr.length
  if total_questions = 0 then none
  else some { multiple_choice := mc, true_false := tf, fill_blank := fb,
              short_answer := sa, free_recall := fr, total_questions := total_questions }

/-- One challenge record as produced by `parse_challenges` (the constant
`type` key is carried by the Lean type). -/
structure Challenge where
  id : Nat
  title : List Char
  description : List Char
  learning_goals : List Char
  deliverables : List Char
  deriving DecidableEq, Repr

/-- The dict returned by `parse_challenges`. -/
structure ChallengesResult where
  challenges : List Challenge
  total_challenges : Nat
  deriving DecidableEq, Repr

/-- The student-app `parse_challenges`: require the `<challenges>` wrapper,
iterate the `<challenge>` blocks, keep the blocks with all four fields,
fail when no valid challenge remains. -/
def parse_challenges (response_str : List Char) : Option ChallengesResult :=
  let challenges :=
    match reSearchBlock ("<challenges>".toList) ("</challenges>".toList) response_str with
    | some section_content =>
      (reAllBlocks ("<challenge>".toList) ("</challenge>".toList) section_content).enum.filterMap
        fun p =>
          match parse_simple_xml_tag p.2 ("title".toList),
                parse_simple_xml_tag p.2 ("description".toList),
                parse_simple_xml_tag p.2 ("learning_goals".toList),
                parse_simple_xml_tag p.2 ("deliverables".toList) with
          | some t, some d, some lg, some dv =>
            some { id := p.1 + 1, title := t, description := d,
                   learning_goals := lg, deliverables := dv }
          | _, _, _, _ => none
    | none => []
  if challenges = [] then none
  else some { challenges := challenges, total_challenges := challenges.length }

/-- Result of `parse_answer_evaluation`. -/
structure AnswerEvaluation where
  is_correct : Bool
  feedback : List Char
  deriving DecidableEq, Repr

/-- The fixed vocabulary accepted for the `is_correct` field (English and
Spanish affirmative and negative tokens, digits included). -/
def isCorrectVocabulary : List (List Char) :=
  ["yes", "no", "sí", "si", "true", "false", "1", "0"].map String.toList

/-- The affirmative subset of `isCorrectVocabulary`. -/
def isCorrectAffirmative : List (List Char) :=
  ["yes", "sí", "si", "true", "1"].map String.toList

/-- The student-app `parse_answer_evaluation`: reject responses whose
stripped length is below 10, extract `is_correct` and `feedback`, validate
the cleaned `is_correct` token against the fixed vocabulary, and coerce the
boolean from the affirmative subset. -/
def parse_answer_evaluation (response_str : List Char) : Option AnswerEvaluation :=
  if (pyStrip response_str).length < 10 then none
  else
    match parse_simple_xml_tag response_str ("is_correct".toList),
          parse_simple_xml_tag response_str ("feedback".toList) with
    | some is_correct_str, some feedback =>
      let is_correct_clean := pyStrip (pyLower is_correct_str)
      if is_correct_clean ∈ isCorrectVocabulary then
        some { is_correct := is_correct_clean ∈ isCorrectAffirmative,
               feedback := pyStrip feedback }
      else none
    | _, _ => none

/-- Result of `parse_challenge_feedback`. -/
structure ChallengeFeedback where
  delivered : List Char
  strengths : List Char
  areas_for_improvement : List Char
  suggestions : List Char
  overall_assessment : List Char
  ready_to_submit : Bool
  deriving DecidableEq, Repr

/-- The student-app `parse_challenge_feedback`: require the wrapper block
and all six fields; `ready_to_submit` is coerced with
`ready_to_submit_str.lower().strip() == 'yes'` and never validated against a
vocabulary. -/
def parse_challenge_feedback (response_str : List Char) : Option ChallengeFeedback :=
  match reSearchBlock ("<challenge_feedback>".toList) ("</challenge_feedback>".toList)
      response_str with
  | none => none
  | some feedback_content =>
    match parse_simple_xml_tag feedback_content ("delivered".toList),
          parse_simple_xml_tag feedback_content ("strengths".toList),
          parse_simple_xml_tag feedback_content ("areas_for_improvement".toList),
          parse_simple_xml_tag feedback_content ("suggestions".toList),
          parse_simple_xml_tag feedback_content ("overall_assessment".toList),
          parse_simple_xml_tag feedback_content ("ready_to_submit".toList) with
    | some de, some st, some ar, some su, some ov, some rts =>
      some { delivered := pyStrip de, strengths := pyStrip st,
             areas_for_improvement := pyStrip ar, suggestions := pyStrip su,
             overall_assessment := pyStrip ov,
             ready_to_submit := pyStrip (pyLower rts) = ("yes".toList) }
    | _, _, _, _, _, _ => none

/-- One parsed document section. -/
structure Section where
  section_number : Nat
  content : List Char
  deriving DecidableEq, Repr

/-- Digits of `n` in base 10, most significant first, as `str(n)` renders
them (fuelled division recursion; fuel `n + 1` always suffices). -/
def natDigitsAux : Nat → Nat → List Char
  | 0, _ => []
  | fuel + 1, n => if n < 10 then [Nat.digitChar n]
                   else natDigitsAux fuel (n / 10) ++ [Nat.digitChar (n % 10)]

/-- Python `str(n)` for a natural number. -/
def natStr (n : Nat) : List Char :=
  natDigitsAux (n + 1) n

/-- Numeric value of a list of decimal digit characters, as `int` parses it
(leading zeros allowed). -/
def natOfDigits (ds : List Char) : Nat :=
  ds.foldl (fun acc c => acc * 10 + (c.toNat - '0'.toNat)) 0

/-- Match of the pattern `<section_(\d+)>` at the head of `l`: the section
number and the length of the matched text.  `\d+` is greedy followed by a
literal `>`, so the digit run is maximal and the next character must be
`>` (digits restricted to ASCII, as in every input the system produces). -/
def matchSectionOpenTag (l : List Char) : Option (Nat × Nat) :=
  if ("<section_".toList).isPrefixOf l then
    let rest := l.drop 9
    let ds := rest.takeWhile Char.isDigit
    if ds ≠ [] ∧ (rest.drop ds.length).head? = some '>' then
      some (natOfDigits ds, 9 + ds.length + 1)
    else none
  else none

/-- Fuelled scan for every non-overlapping match of `<section_(\d+)>`,
left to right, recording (number, match start, match end); models
`re.finditer(r'<section_(\d+)>', content)`. -/
def findSectionTagsAux : Nat → List Char → Nat → List (Nat × Nat × Nat)
  | 0, _, _ => []
  | fuel + 1, l, pos =>
    match l with
    | [] => []
    | _ :: rest =>
      match matchSectionOpenTag l with
      | some (v, len) => (v, pos, pos + len) :: findSectionTagsAux fuel (l.drop len) (pos + len)
      | none => findSectionTagsAux fuel rest (pos + 1)

/-- All matches of `<section_(\d+)>` in `content` with their spans. -/
def findSectionTags (content : List Char) : List (Nat × Nat × Nat) :=
  findSectionTagsAux content.length content 0

/-- Match at the head of `l` of the cleanup pattern `</?section_\d+>`
(open or close section tag), returning the matched length. -/
def matchAnySectionTag (l : List Char) : Option Nat :=
  match matchSectionOpenTag l with
  | some (_, len) => some len
  | none =>
    match l with
    | '<' :: '/' :: rest =>
      match matchSectionOpenTag ('<' :: rest) with
      | some (_, len) => some (len + 1)
      | none => none
    | _ => none

/-- Fuelled worker for `removeSectionTags`. -/
def removeSectionTagsAux : Nat → List Char → List Char
  | 0, l => l
  | fuel + 1, l =>
    match l with
    | [] => []
    | c :: rest =>
      match matchAnySectionTag l with
      | some len => removeSectionTagsAux fuel (l.drop len)
      | none => c :: removeSectionTagsAux fuel rest

/-- Models `re.sub(r'</?section_\d+>', '', raw)`. -/
def removeSectionTags (raw : List Char) : List Char :=
  removeSectionTagsAux raw.length raw

/-- The raw content selected for one section match `(num, start, stop)`:
between the open tag and the matching close tag when one occurs later,
otherwise up to the next section match (given as `nextStart?`), otherwise to
the end of the block; then cleaned of stray section tags and stripped. -/
def sectionContentAt (content : List Char) (num stop : Nat)
    (nextStart? : Option Nat) : List Char :=
  let closing_tag := closeTagOf (("section_".toList) ++ natStr num)
  let raw :=
    match findSubFrom closing_tag content stop with
    | some closing_pos => pyStrip (pySlice content stop closing_pos)
    | none =>
      match nextStart? with
      | some next_section_start => pyStrip (pySlice content stop next_section_start)
      | none => pyStrip (content.drop stop)
  pyStrip (removeSectionTags raw)

/-- Build the section list: discard empty contents, numbering survivors
sequentially from `count + 1` as the Python `len(sections) + 1` does. -/
def buildSectionsAux (content : List Char) (count : Nat) :
    List (Nat × Nat × Nat) → List Section
  | [] => []
  | m :: rest =>
    let c := sectionContentAt content m.1 m.2.2 (rest.head?.map (fun n => n.2.1))
    if c = [] then buildSectionsAux content count rest
    else { section_number := count + 1, content := c } :: buildSectionsAux content (count + 1) rest

/-- The student-app `_parse_sections_intelligently` (its `max_sections`
parameter is never read by the source). -/
def _parse_sections_intelligently (content : List Char) : List Section :=
  buildSectionsAux content 0 (findSectionTags content)

end StudentParsers

/-- Append the first `k` items of a batch to an accumulator list, stamping
them with consecutive ids starting at `next_id`; models the inner
`for i in range(questions_to_add)` loop of the merge functions. -/
def appendNumbered {α : Type} (setId : α → Nat → α) : Nat → Nat → List α → List α
  | _, 0, _ => []
  | _, _ + 1, [] => []
  | next_id, k + 1, q :: qs => setId q next_id :: appendNumbered setId (next_id + 1) k qs

namespace GenerateQuestions

open StudentParsers

/-- Counts per requirement bucket, in the order of the
`check_question_requirements` dict literal. -/
structure ReqCounts where
  multiple_choice_true_false : Nat
  fill_blank : Nat
  short_answer : Nat
  free_recall : Nat
  deriving DecidableEq, Repr

/-- The fixed requirements dict of `check_question_requirements` (also the
`absolute_limits` dict of `merge_questions`, which lists the same numbers). -/
def requirements : ReqCounts :=
  { multiple_choice_true_false := 3, fill_blank := 2, short_answer := 2, free_recall := 1 }

/-- The `current` dict of `check_question_requirements`. -/
def currentCounts (questions_result : QuestionsResult) : ReqCounts :=
  { multiple_choice_true_false :=
      questions_result.multiple_choice.length + questions_result.true_false.length,
    fill_blank := questions_result.fill_blank.length,
    short_answer := questions_result.short_answer.length,
    free_recall := questions_result.free_recall.length }

/-- The `missing` dict of `check_question_requirements`: a bucket is listed
exactly when `current < required`, with value `required - current`; here a
zero encodes absence (truncated subtraction). -/
def missingCounts (questions_result : QuestionsResult) : ReqCounts :=
  let cur := currentCounts questions_result
  { multiple_choice_true_false :=
      requirements.multiple_choice_true_false - cur.multiple_choice_true_false,
    fill_blank := requirements.fill_blank - cur.fill_blank,
    short_answer := requirements.short_answer - cur.short_answer,
    free_recall := requirements.free_recall - cur.free_recall }

/-- Whether the `overgenerated` dict of `check_question_requirements` is
non-empty: some bucket holds more than required. -/
def overgenerated (questions_result : QuestionsResult) : Bool :=
  let cur := currentCounts questions_result
  decide (requirements.multiple_choice_true_false < cur.multiple_choice_true_false) ||
  decide (requirements.fill_blank < cur.fill_blank) ||
  decide (requirements.short_answer < cur.short_answer) ||
  decide (requirements.free_recall < cur.free_recall)

/-- All four missing counts are zero (`not missing` in the source). -/
def noneMissing (questions_result : QuestionsResult) : Bool :=
  decide (missingCounts questions_result = ⟨0, 0, 0, 0⟩)

/-- The `generate_questions.merge_questions` function.  For each requirement
bucket with a positive missing count: cap the count at
`absolute_limits - current` (Python `min` over ints; with truncated
subtraction the behaviours agree, both adding nothing when the accumulator
is at or past the limit), then draw items from the bucket's question types
in order — `multiple_choice` before `true_false` for the combined bucket —
taking at most the remaining need from each new list, stamping ids
`len(existing) + 1, len(existing) + 2, ...` per question type, and finally
recompute `total_questions`. -/
def merge_questions (existing_result new_result : QuestionsResult)
    (missing : ReqCounts) : QuestionsResult :=
  let cur_mctf := existing_result.multiple_choice.length + existing_result.true_false.length
  let r0 := min missing.multiple_choice_true_false (3 - cur_mctf)
  let k1 := min r0 new_result.multiple_choice.length
  let mc := existing_result.multiple_choice ++
    appendNumbered (fun q i => { q with id := i })
      (existing_result.multiple_choice.length + 1) k1 new_result.multiple_choice
  let k2 := min (r0 - k1) new_result.true_false.length
  let tf := existing_result.true_false ++
    appendNumbered (fun q i => { q with id := i })
      (existing_result.true_false.length + 1) k2 new_result.true_false
  let rf := min missing.fill_blank (2 - existing_result.fill_blank.length)
  let kf := min rf new_result.fill_blank.length
  let fb := existing_result.fill_blank ++
    appendNumbered (fun q i => { q with id := i })
      (existing_result.fill_blank.length + 1) kf new_result.fill_blank
  let rs := min missing.short_answer (2 - existing_result.short_answer.length)
  let ks := min rs new_result.short_answer.length
  let sa := existing_result.short_answer ++
    appendNumbered (fun q i => { q with id := i })
      (existing_result.short_answer.length + 1) ks new_result.short_answer
  let rr := min missing.free_recall (1 - existing_result.free_recall.length)
  let kr := min rr new_result.free_recall.length
  let fr := existing_result.free_recall ++
    appendNumbered (fun q i => { q with id := i })
      (existing_result.free_recall.length + 1) kr new_result.free_recall
  { multiple_choice := mc, true_false := tf, fill_blank := fb,
    short_answer := sa, free_recall := fr,
    total_questions := mc.length + tf.length + fb.length + sa.length + fr.length }

/-- The `generate_questions.main` while-loop once an accumulator exists
(`final_result is not None`), consuming the remaining attempt outcomes
(`none` models an attempt whose generation or parsing failed).  A later
batch is merged against the missing counts computed before the attempt,
unless the accumulator is already overgenerated.  The loop breaks on a
perfect result, on overgeneration at eight or more questions, on no
missing bucket, or on eight or more total questions; exhausting the
attempts returns the accumulator as-is. -/
def sessionLoop (f : QuestionsResult) : List (Option QuestionsResult) →
    Option QuestionsResult
  | [] => some f
  | none :: rest => sessionLoop f rest
  | some result :: rest =>
    let f2 := if overgenerated f then f else merge_questions f result (missingCounts f)
    if f2.total_questions = 8 ∧ noneMissing f2 then some f2
    else if overgenerated f2 ∧ 8 ≤ f2.total_questions then some f2
    else if noneMissing f2 then some f2
    else if 8 ≤ f2.total_questions then some f2
    else sessionLoop f2 rest

/-- The `generate_questions.main` while-loop before any attempt succeeds
(`final_result is None`): the first accepted batch becomes the accumulator
directly, runs through the same break checks, and the loop continues in
`sessionLoop`. -/
def sessionFirst : List (Option QuestionsResult) → Option QuestionsResult
  | [] => none
  | none :: rest => sessionFirst rest
  | some result :: rest =>
    if result.total_questions = 8 ∧ noneMissing result then some result
    else if overgenerated result ∧ 8 ≤ result.total_questions then some result
    else if noneMissing result then some result
    else if 8 ≤ result.total_questions then some result
    else sessionLoop result rest

/-- A full question-generation session: at most `max_attempts = 3` outcomes
are consumed, starting from an empty accumulator. -/
def runQuestionSession (outcomes : List (Option QuestionsResult)) : Option QuestionsResult :=
  sessionFirst (outcomes.take 3)

end GenerateQuestions

namespace GenerateChallenges

open StudentParsers

/-- The `missing` count of `check_challenge_requirements`:
`max(0, 5 - current)`. -/
def missingChallenges (challenges_result : ChallengesResult) : Nat :=
  5 - challenges_result.challenges.length

/-- The `generate_challenges.merge_challenges` function: with a positive
missing count, append at most that many challenges from the new batch,
stamping ids `len(existing) + 1, ...`, and recompute the total; with no
missing count return the accumulator untouched. -/
def merge_challenges (existing_result new_result : ChallengesResult)
    (missing_count : Nat) : ChallengesResult :=
  if missing_count = 0 then existing_result
  else
    let next_id := existing_result.challenges.length + 1
    let k := min missing_count new_result.challenges.length
    let chs := existing_result.challenges ++
      appendNumbered (fun c i => { c with id := i }) next_id k new_result.challenges
    { challenges := chs, total_challenges := chs.length }

/-- The `generate_challenges.main` while-loop once an accumulator exists:
later batches are merged against the missing count computed before the
attempt; the loop breaks as soon as nothing is missing, and exhausting the
attempts returns the accumulator as-is. -/
def sessionLoop (f : ChallengesResult) : List (Option ChallengesResult) →
    Option ChallengesResult
  | [] => some f
  | none :: rest => sessionLoop f rest
  | some result :: rest =>
    let f2 := merge_challenges f result (missingChallenges f)
    if missingChallenges f2 = 0 then some f2
    else sessionLoop f2 rest

/-- The `generate_challenges.main` while-loop before any attempt succeeds:
the first accepted batch becomes the accumulator directly. -/
def sessionFirst : List (Option ChallengesResult) → Option ChallengesResult
  | [] => none
  | none :: rest => sessionFirst rest
  | some result :: rest =>
    if missingChallenges result = 0 then some result
    else sessionLoop result rest

/-- A full challenge-generation session (`max_attempts = 3`). -/
def runChallengeSession (outcomes : List (Option ChallengesResult)) : Option ChallengesResult :=
  sessionFirst (outcomes.take 3)

end GenerateChallenges

namespace FeedbackQueue

/-- The four task lifecycle states of `feedback_queue`. -/
inductive TaskStatus where
  | pending
  | processing
  | completed
  | error
  deriving DecidableEq, Repr

/-- The record stored in `task_results[task_id]`.  Timestamps are modelled
as naturals; the source stores ISO strings whose lexicographic order agrees
with time order. `processing_time_seconds` (a Python float) is modelled as a
rational. -/
structure TaskInfo where
  status : TaskStatus
  created_at : Nat
  challenge_id : List Char
  challenge_title : List Char
  has_images : Bool
  started_at : Option Nat
  completed_at : Option Nat
  result : Option (List Char)
  error : Option (List Char)
  processing_time_seconds : Option ℚ
  deriving DecidableEq, Repr

/-- First value bound to `key` in a Python dict modelled as an insertion
ordered association list. -/
def dictLookup {V : Type} (key : List Char) : List (List Char × V) → Option V
  | [] => none
  | kv :: rest => if kv.1 = key then some kv.2 else dictLookup key rest

/-- Python `del d[key]` on an association list with unique keys. -/
def dictDel {V : Type} (key : List Char) (d : List (List Char × V)) :
    List (List Char × V) :=
  d.filter fun kv => kv.1 ≠ key

/-- The module state of `feedback_queue`: the bounded asyncio queue (FIFO
list of task ids, `maxsize = 100`) and the `task_results` dict. -/
structure QueueState where
  feedback_queue : List (List Char)
  task_results : List (List Char × TaskInfo)
  deriving DecidableEq, Repr

/-- The queue capacity (`asyncio.Queue(maxsize=100)`). -/
def queueMaxsize : Nat := 100

/-- The message of the ValueError raised on a full queue. -/
def queueFullMessage : List Char :=
  "Feedback queue is full. Please try again later.".toList

/-- The `create_feedback_task` function: record a pending entry for the
fresh task id, then `put_nowait`; when the queue is at capacity the entry is
deleted again and a ValueError is raised — `.error` carries its message and
the returned state is the post-exception module state. -/
def create_feedback_task (st : QueueState) (task_id : List Char) (created_at : Nat)
    (challenge_id challenge_title : List Char) (has_images : Bool) :
    Except (List Char) (List Char) × QueueState :=
  let info : TaskInfo :=
    { status := .pending, created_at := created_at, challenge_id := challenge_id,
      challenge_title := challenge_title.take 100, has_images := has_images,
      started_at := none, completed_at := none, result := none, error := none,
      processing_time_seconds := none }
  let tr1 := st.task_results ++ [(task_id, info)]
  if queueMaxsize ≤ st.feedback_queue.length then
    (.error queueFullMessage, { st with task_results := dictDel task_id tr1 })
  else
    (.ok task_id, { feedback_queue := st.feedback_queue ++ [task_id], task_results := tr1 })

/-- The `get_queue_position` function: `0` for a non-pending task, else one
plus the number of pending entries created strictly earlier. -/
def get_queue_position (st : QueueState) (task_id : List Char) : Nat :=
  match dictLookup task_id st.task_results with
  | none => 0
  | some info =>
    if info.status ≠ .pending then 0
    else 1 + st.task_results.countP fun p =>
      decide (p.2.status = .pending ∧ p.2.created_at < info.created_at)

/-- The `estimate_wait_time` function: `(position - 1)` times the mean
processing time of completed tasks with a recorded (truthy, hence non-zero)
processing time, defaulting to 120 seconds, converted to minutes. -/
def estimate_wait_time (st : QueueState) (task_id : List Char) : ℚ :=
  let position := get_queue_position st task_id
  let completed_times := st.task_results.filterMap fun p =>
    match p.2.processing_time_seconds with
    | some t => if p.2.status = .completed ∧ t ≠ 0 then some t else none
    | none => none
  let avg_processing_time : ℚ :=
    if completed_times = [] then 120 else completed_times.sum / completed_times.length
  let estimated_seconds := max 0 (((position - 1 : Nat) : ℚ) * avg_processing_time)
  estimated_seconds / 60

/-- The record returned by `get_task_status`: a copy of the task info, with
queue position and estimated wait attached only for pending tasks. -/
structure TaskStatusView where
  task_info : TaskInfo
  queue_position : Option Nat
  estimated_wait_minutes : Option ℚ
  deriving DecidableEq, Repr

/-- The `get_task_status` function. -/
def get_task_status (st : QueueState) (task_id : List Char) : Option TaskStatusView :=
  match dictLookup task_id st.task_results with
  | none => none
  | some info =>
    if info.status = .pending then
      some { task_info := info,
             queue_position := some (get_queue_position st task_id),
             estimated_wait_minutes := some (estimate_wait_time st task_id) }
    else
      some { task_info := info, queue_position := none, estimated_wait_minutes := none }

end FeedbackQueue

namespace TutorParsers

/-- The `COMMON_TAG_TYPOS` dict of the tutor-app `parsers` module, in
insertion order.  The source lists `progresion` twice; dict semantics keep
one entry at the first position, so it appears once here. -/
def COMMON_TAG_TYPOS : List (List Char × List Char) :=
  ([("recommendaions", "recommendations"),
    ("recommendaion", "recommendations"),
    ("recomendations", "recommendations"),
    ("recomendaions", "recommendations"),
    ("recommendtions", "recommendations"),
    ("recomendtions", "recommendations"),
    ("reccommendations", "recommendations"),
    ("reccomendations", "recommendations"),
    ("progrression", "progression"),
    ("progresion", "progression"),
    ("progresssion", "progression"),
    ("progreesion", "progression"),
    ("progresstion", "progression"),
    ("executiv_summary", "executive_summary"),
    ("executive_sumary", "executive_summary"),
    ("executiv_sumary", "executive_summary"),
    ("executive_summry", "executive_summary"),
    ("executve_summary", "executive_summary"),
    ("executiv_summery", "executive_summary"),
    ("priorit_focus", "priority_focus"),
    ("priority_focuss", "priority_focus"),
    ("priortiy_focus", "priority_focus"),
    ("priority_foccus", "priority_focus"),
    ("priorty_focus", "priority_focus"),
    ("prioritie_focus", "priority_focus"),
    ("findinggs", "findings"),
    ("findigns", "findings"),
    ("finidngs", "findings"),
    ("findngs", "findings"),
    ("findingss", "findings"),
    ("notess", "notes"),
    ("nots", "notes"),
    ("noets", "notes"),
    ("note", "notes")] :
      List (String × String)).map fun p => (p.1.toList, p.2.toList)

/-- A regex `\w` character (restricted to ASCII, which covers every tag the
source handles). -/
def isWordChar (c : Char) : Bool :=
  c.isAlphanum || c = '_'

/-- Inner row loop of `levenshtein_distance`: `p0 :: p1 :: ps` walks the
previous row, `last` is the last value appended to the current row. -/
def levRowAux (c1 : Char) : List Nat → List Char → Nat → List Nat
  | p0 :: p1 :: ps, c2 :: cs, last =>
    let v := min (p1 + 1) (min (last + 1) (p0 + (if c1 = c2 then 0 else 1)))
    v :: levRowAux c1 (p1 :: ps) cs v
  | _, _, _ => []

/-- One outer iteration of `levenshtein_distance`: build the current row
from the previous row. -/
def levNextRow (s2 : List Char) (previous_row : List Nat) (c1 : Char) : List Nat :=
  match previous_row with
  | [] => []
  | p :: _ => (p + 1) :: levRowAux c1 previous_row s2 (p + 1)

/-- The dynamic-programming core of `levenshtein_distance`, assuming the
argument order was fixed by the wrapper. -/
def levCore (s1 s2 : List Char) : Nat :=
  if s2.length = 0 then s1.length
  else ((s1.foldl (levNextRow s2) (List.range (s2.length + 1))).getLast?).getD 0

/-- The tutor-app `levenshtein_distance` (the recursive swap of the source
reduces to one swap). -/
def levenshtein_distance (s1 s2 : List Char) : Nat :=
  if s1.length < s2.length then levCore s2 s1 else levCore s1 s2

/-- Match of the pattern `</?(\w+)>` at the head of `l`: the tag word and
the matched length. -/
def matchSimpleTag (l : List Char) : Option (List Char × Nat) :=
  match l with
  | '<' :: rest =>
    let slashed := rest.head? = some '/'
    let rest2 := if slashed then rest.drop 1 else rest
    let w := rest2.takeWhile isWordChar
    if w ≠ [] ∧ (rest2.drop w.length).head? = some '>' then
      some (w, 1 + (if slashed then 1 else 0) + w.length + 1)
    else none
  | _ => none

/-- Fuelled worker for `findAllSimpleTags`. -/
def findAllSimpleTagsAux : Nat → List Char → List (List Char)
  | 0, _ => []
  | fuel + 1, l =>
    match l with
    | [] => []
    | _ :: rest =>
      match matchSimpleTag l with
      | some (w, len) => w :: findAllSimpleTagsAux fuel (l.drop len)
      | none => findAllSimpleTagsAux fuel rest

/-- Models `re.findall(r'</?(\w+)>', s)`: every tag word, left to right. -/
def findAllSimpleTags (s : List Char) : List (List Char) :=
  findAllSimpleTagsAux s.length s

/-- Fuelled deduplication keeping first occurrences.  Python builds a `set`
here, whose iteration order is unspecified; this model fixes the
first-occurrence order. -/
def dedupFirstAux : Nat → List (List Char) → List (List Char)
  | 0, _ => []
  | _ + 1, [] => []
  | fuel + 1, x :: rest => x :: dedupFirstAux fuel (rest.filter fun y => y ≠ x)

/-- Deduplicate keeping first occurrences. -/
def dedupFirst (l : List (List Char)) : List (List Char) :=
  dedupFirstAux l.length l

/-- Stable insertion placing `x` before the first element of strictly
larger distance. -/
def insertByDist (x : List Char × Nat) : List (List Char × Nat) → List (List Char × Nat)
  | [] => [x]
  | y :: rest => if y.2 < x.2 then y :: insertByDist x rest else x :: y :: rest

/-- Stable sort by distance, as Python `list.sort(key=lambda x: x[1])`. -/
def sortByDist : List (List Char × Nat) → List (List Char × Nat)
  | [] => []
  | x :: rest => insertByDist x (sortByDist rest)

/-- The tutor-app `find_similar_tags`: all tags of the lowered response,
deduplicated, kept when their edit distance to the target is in
`(0, max_distance]`, sorted by distance. -/
def find_similar_tags (response_str target_tag : List Char) (max_distance : Nat) :
    List (List Char × Nat) :=
  let found_tags := findAllSimpleTags (pyLower response_str)
  let similar_tags := (dedupFirst found_tags).filterMap fun tag =>
    let distance := levenshtein_distance (pyLower tag) (pyLower target_tag)
    if distance ≤ max_distance ∧ 0 < distance then some (tag, distance) else none
  sortByDist similar_tags

/-- The non-exact correction kinds reported by `find_best_tag_match`. -/
inductive CorrectionKind where
  | typo
  | fuzzy
  | variant
  deriving DecidableEq, Repr

/-- Step 2 of `find_best_tag_match`: the first typo entry whose canonical
name is the target and whose open tag occurs in the lowered response. -/
def findTypoMatch (target_lower lowered_response : List Char) :
    List (List Char × List Char) → Option (List Char)
  | [] => none
  | (typo, correct) :: rest =>
    if correct = target_lower ∧ containsSub (openTagOf typo) lowered_response then some typo
    else findTypoMatch target_lower lowered_response rest

/-- Fuelled scan for step 4's `rf'<({target}[\w]*?)>'` under `IGNORECASE`:
tags that extend the target name with word characters.  Scanning and groups
are over the lowered text (the concrete tags are lower case). -/
def findOpeningVariantsAux (target_lower : List Char) : Nat → List Char → List (List Char)
  | 0, _ => []
  | fuel + 1, l =>
    match l with
    | [] => []
    | _ :: rest =>
      if ('<' :: target_lower).isPrefixOf l then
        let after := l.drop (1 + target_lower.length)
        let w := after.takeWhile isWordChar
        if (after.drop w.length).head? = some '>' then
          (target_lower ++ w) ::
            findOpeningVariantsAux target_lower fuel (after.drop (w.length + 1))
        else findOpeningVariantsAux target_lower fuel rest
      else findOpeningVariantsAux target_lower fuel rest

/-- Fuelled scan for step 4's `rf'</(\w*?{target}[\w]*?)>'` under
`IGNORECASE`: closing tags whose word contains the target name. -/
def findClosingVariantsAux (target_lower : List Char) : Nat → List Char → List (List Char)
  | 0, _ => []
  | fuel + 1, l =>
    match l with
    | [] => []
    | _ :: rest =>
      match l with
      | '<' :: '/' :: after =>
        let w := after.takeWhile isWordChar
        if (after.drop w.length).head? = some '>' ∧ containsSub target_lower w then
          w :: findClosingVariantsAux target_lower fuel (after.drop (w.length + 1))
        else findClosingVariantsAux target_lower fuel rest
      | _ => findClosingVariantsAux target_lower fuel rest

/-- Number of occurrences of `x` (Python `list.count`). -/
def countOcc (x : List Char) (l : List (List Char)) : Nat :=
  l.countP fun y => decide (y = x)

/-- Python `max(set(all_variants), key=all_variants.count)`, with the
unspecified set order fixed to first occurrences, so the first variant of
maximal multiplicity wins. -/
def mostCommon (all_variants : List (List Char)) : Option (List Char) :=
  (dedupFirst all_variants).foldl
    (fun best x =>
      match best with
      | none => some x
      | some b => if countOcc b all_variants < countOcc x all_variants then some x else best)
    none

/-- The tutor-app `find_best_tag_match`: exact open tag (no correction),
else the first known typo present, else the closest fuzzy tag within
distance 2, else the most common opening/closing variant. -/
def find_best_tag_match (response_str target_tag : List Char) :
    Option (List Char × Option CorrectionKind) :=
  if containsSub (openTagOf target_tag) (pyLower response_str) then some (target_tag, none)
  else
    match findTypoMatch (pyLower target_tag) (pyLower response_str) COMMON_TAG_TYPOS with
    | some typo => some (typo, some .typo)
    | none =>
      match find_similar_tags response_str target_tag 2 with
      | (best_match, _) :: _ => some (best_match, some .fuzzy)
      | [] =>
        let lowered := pyLower response_str
        let all_variants :=
          findOpeningVariantsAux (pyLower target_tag) lowered.length lowered ++
          findClosingVariantsAux (pyLower target_tag) lowered.length lowered
        match mostCommon all_variants with
        | some best_variant => some (best_variant, some .variant)
        | none => none

/-- Fuelled scan for `rf'<{re.escape(actual_tag)}[^>]*?>'` under
`IGNORECASE` over the lowered response: the end position (exclusive) of the
first match, i.e. one past the first `>` following an occurrence of
`<actual`. -/
def findLooseOpenEndAux (actual_lower : List Char) : Nat → List Char → Nat → Option Nat
  | 0, _, _ => none
  | fuel + 1, l, pos =>
    match l with
    | [] => none
    | _ :: rest =>
      if ('<' :: actual_lower).isPrefixOf l then
        let after := l.drop (1 + actual_lower.length)
        match findSub ['>'] after with
        | some j => some (pos + 1 + actual_lower.length + j + 1)
        | none => findLooseOpenEndAux actual_lower fuel rest (pos + 1)
      else findLooseOpenEndAux actual_lower fuel rest (pos + 1)

/-- Earliest closing-tag position at or after `start_index` among the
candidate closing tags, ties resolved to the earlier list entry. -/
def bestClosingPos (response_str : List Char) (start_index : Nat)
    (possible_closing_tags : List (List Char)) : Option Nat :=
  possible_closing_tags.foldl
    (fun best closing_tag =>
      match findSubFrom closing_tag response_str start_index with
      | some end_index =>
        match best with
        | none => some end_index
        | some b => if end_index < b then some end_index else best
      | none => best)
    none

/-- The tutor-app `extract_content_with_mismatched_tags`: try the literal
pair of the actual tag; else find a loose opening match and the earliest
plausible closing tag (actual, target, or any typo variant of the target),
slice, strip, and fail on empty content. -/
def extract_content_with_mismatched_tags (response_str actual_tag target_tag : List Char) :
    Option (List Char) :=
  let start_tag := openTagOf actual_tag
  let end_tag := closeTagOf actual_tag
  match findSub start_tag response_str, findSub end_tag response_str with
  | some start_index, some end_index =>
    let content := pyStrip (pySlice response_str (start_index + start_tag.length) end_index)
    if content = [] then none else some content
  | _, _ =>
    let lowered := pyLower response_str
    match findLooseOpenEndAux (pyLower actual_tag) lowered.length lowered 0 with
    | none => none
    | some start_index =>
      let possible_closing_tags :=
        closeTagOf actual_tag :: closeTagOf target_tag ::
          COMMON_TAG_TYPOS.filterMap fun p =>
            if pyLower p.2 = pyLower target_tag then some (closeTagOf p.1) else none
      match bestClosingPos response_str start_index possible_closing_tags with
      | none => none
      | some best_end_index =>
        let content := pyStrip (pySlice response_str start_index best_end_index)
        if content = [] then none else some content

/-- The tutor-app `parse_simple_xml_tag`: exact literal pair first (failing
outright on empty stripped content), otherwise resilient matching through
`find_best_tag_match` and `extract_content_with_mismatched_tags`. -/
def parse_simple_xml_tag (response_str tag_name : List Char) : Option (List Char) :=
  let start_tag := openTagOf tag_name
  let end_tag := closeTagOf tag_name
  match findSub start_tag response_str, findSub end_tag response_str with
  | some start_index, some end_index =>
    let content := pyStrip (pySlice response_str (start_index + start_tag.length) end_index)
    if content = [] then none else some content
  | _, _ =>
    match find_best_tag_match response_str tag_name with
    | none => none
    | some (actual_tag, _) =>
      extract_content_with_mismatched_tags response_str actual_tag tag_name

end TutorParsers

/-- Stamp the elements of `l` with ids `base + 1, base + 2, ...`; the
closed form of `appendNumbered`, used in specifications. -/
def stampIds {α : Type} (setId : α → Nat → α) (base : Nat) (l : List α) : List α :=
  l.mapIdx fun i q => setId q (base + 1 + i)

/-- The first accepted (non-`none`) outcome of a list of attempt outcomes. -/
def firstAccepted {α : Type} : List (Option α) → Option α
  | [] => none
  | none :: rest => firstAccepted rest
  | some r :: _ => some r

namespace GenerateQuestions

/-- Every bucket of the accumulator is at or below its quota ceiling. -/
def withinQuota (q : StudentParsers.QuestionsResult) : Prop :=
  (currentCounts q).multiple_choice_true_false ≤ requirements.multiple_choice_true_false ∧
  (currentCounts q).fill_blank ≤ requirements.fill_blank ∧
  (currentCounts q).short_answer ≤ requirements.short_answer ∧
  (currentCounts q).free_recall ≤ requirements.free_recall

instance (q : StudentParsers.QuestionsResult) : Decidable (withinQuota q) := by
  unfold withinQuota; infer_instance

/-- The stored `total_questions` agrees with the five category lists. -/
def totalConsistent (q : StudentParsers.QuestionsResult) : Prop :=
  q.total_questions = q.multiple_choice.length + q.true_false.length +
    q.fill_blank.length + q.short_answer.length + q.free_recall.length

instance (q : StudentParsers.QuestionsResult) : Decidable (totalConsistent q) := by
  unfold totalConsistent; infer_instance

end GenerateQuestions

namespace GenerateChallenges

/-- The single challenge bucket is at or below its quota of five. -/
def withinQuota (c : StudentParsers.ChallengesResult) : Prop :=
  c.challenges.length ≤ 5

instance (c : StudentParsers.ChallengesResult) : Decidable (withinQuota c) := by
  unfold withinQuota; infer_instance

/-- The stored `total_challenges` agrees with the challenge list. -/
def totalConsistent (c : StudentParsers.ChallengesResult) : Prop :=
  c.total_challenges = c.challenges.length

instance (c : StudentParsers.ChallengesResult) : Decidable (totalConsistent c) := by
  unfold totalConsistent; infer_instance

end GenerateChallenges

section ConcreteInputs

open StudentParsers FeedbackQueue

/-- A model response whose `true_false` block holds four valid questions:
the combined multiple-choice/true-false bucket overshoots its quota of 3
within a single attempt. -/
def overTfResponse : List Char :=
  ("<true_false><question><text>q1</text><answer>true</answer></question>" ++
   "<question><text>q2</text><answer>true</answer></question>" ++
   "<question><text>q3</text><answer>false</answer></question>" ++
   "<question><text>q4</text><answer>true</answer></question></true_false>").toList

/-- The parse of `overTfResponse`. -/
def overTfBatch : QuestionsResult :=
  { multiple_choice := [], true_false :=
      [{ id := 1, text := "q1".toList, correct_answer := true },
       { id := 2, text := "q2".toList, correct_answer := true },
       { id := 3, text := "q3".toList, correct_answer := false },
       { id := 4, text := "q4".toList, correct_answer := true }],
    fill_blank := [], short_answer := [], free_recall := [], total_questions := 4 }

/-- A model response with four true/false, two fill-blank, two short-answer
and one free-recall question: nine questions, no bucket in deficit. -/
def nineQuestionResponse : List Char :=
  overTfResponse ++
  ("<fill_blank><question><text>f1 _</text><answer>a1</answer></question>" ++
   "<question><text>f2 _</text><answer>a2</answer></question></fill_blank>" ++
   "<short_answer><question><text>s1</text><answer>b1</answer></question>" ++
   "<question><text>s2</text><answer>b2</answer></question></short_answer>" ++
   "<free_recall><question><text>r1</text><answer>c1</answer></question></free_recall>").toList

/-- The parse of `nineQuestionResponse`. -/
def nineQuestionBatch : QuestionsResult :=
  { overTfBatch with
    fill_blank :=
      [{ id := 1, text := "f1 _".toList, correct_answer := "a1".toList },
       { id := 2, text := "f2 _".toList, correct_answer := "a2".toList }],
    short_answer :=
      [{ id := 1, text := "s1".toList, sample_answer := "b1".toList },
       { id := 2, text := "s2".toList, sample_answer := "b2".toList }],
    free_recall := [{ id := 1, text := "r1".toList, sample_answer := "c1".toList }],
    total_questions := 9 }

/-- A single-attempt batch that stays within every quota bucket. -/
def smallTfBatch : QuestionsResult :=
  { multiple_choice := [], true_false := [{ id := 1, text := "q1".toList, correct_answer := true }],
    fill_blank := [], short_answer := [], free_recall := [], total_questions := 1 }

/-- A batch that exactly fills every quota bucket (3 + 2 + 2 + 1 = 8). -/
def perfectBatch : QuestionsResult :=
  { multiple_choice := [], true_false :=
      [{ id := 1, text := "q1".toList, correct_answer := true },
       { id := 2, text := "q2".toList, correct_answer := false },
       { id := 3, text := "q3".toList, correct_answer := true }],
    fill_blank :=
      [{ id := 1, text := "f1 _".toList, correct_answer := "a1".toList },
       { id := 2, text := "f2 _".toList, correct_answer := "a2".toList }],
    short_answer :=
      [{ id := 1, text := "s1".toList, sample_answer := "b1".toList },
       { id := 2, text := "s2".toList, sample_answer := "b2".toList }],
    free_recall := [{ id := 1, text := "r1".toList, sample_answer := "c1".toList }],
    total_questions := 8 }

/-- A single challenge record used to assemble concrete batches. -/
def mkChallenge (i : Nat) : Challenge :=
  { id := i, title := 't' :: natStr i, description := 'd' :: natStr i,
    learning_goals := 'g' :: natStr i, deliverables := 'v' :: natStr i }

/-- A first-attempt challenge batch of six items: more than the quota of
five, yet with zero deficit. -/
def sixChallengeBatch : ChallengesResult :=
  { challenges := (List.range 6).map fun i => mkChallenge (i + 1), total_challenges := 6 }

/-- A model response carrying the six challenges of `sixChallengeBatch`. -/
def sixChallengeResponse : List Char :=
  ("<challenges>" ++
   "<challenge><title>t1</title><description>d1</description><learning_goals>g1</learning_goals><deliverables>v1</deliverables></challenge>" ++
   "<challenge><title>t2</title><description>d2</description><learning_goals>g2</learning_goals><deliverables>v2</deliverables></challenge>" ++
   "<challenge><title>t3</title><description>d3</description><learning_goals>g3</learning_goals><deliverables>v3</deliverables></challenge>" ++
   "<challenge><title>t4</title><description>d4</description><learning_goals>g4</learning_goals><deliverables>v4</deliverables></challenge>" ++
   "<challenge><title>t5</title><description>d5</description><learning_goals>g5</learning_goals><deliverables>v5</deliverables></challenge>" ++
   "<challenge><title>t6</title><description>d6</description><learning_goals>g6</learning_goals><deliverables>v6</deliverables></challenge>" ++
   "</challenges>").toList

/-- A challenge batch of exactly five items. -/
def fiveChallengeBatch : ChallengesResult :=
  { challenges := (List.range 5).map fun i => mkChallenge (i + 1), total_challenges := 5 }

/-- A challenge accumulator of three items (deficit two). -/
def threeChallengeBatch : ChallengesResult :=
  { challenges := (List.range 3).map fun i => mkChallenge (i + 1), total_challenges := 3 }

/-- An existing question accumulator with deficits 1, 0, 1, 1. -/
def mergeExBatch : QuestionsResult :=
  { multiple_choice := [], true_false :=
      [{ id := 1, text := "q1".toList, correct_answer := true },
       { id := 2, text := "q2".toList, correct_answer := false }],
    fill_blank :=
      [{ id := 1, text := "f1 _".toList, correct_answer := "a1".toList },
       { id := 2, text := "f2 _".toList, correct_answer := "a2".toList }],
    short_answer := [{ id := 1, text := "s1".toList, sample_answer := "b1".toList }],
    free_recall := [], total_questions := 5 }

/-- A later-attempt question batch offering more items than any deficit. -/
def mergeNewBatch : QuestionsResult :=
  { multiple_choice :=
      [{ id := 1, text := "m1".toList, options := [("a".toList, "x".toList)],
         correct_answer := "a".toList },
       { id := 2, text := "m2".toList, options := [("a".toList, "y".toList)],
         correct_answer := "a".toList }],
    true_false := [{ id := 1, text := "q9".toList, correct_answer := true }],
    fill_blank := [{ id := 1, text := "f9 _".toList, correct_answer := "a9".toList }],
    short_answer :=
      [{ id := 1, text := "s8".toList, sample_answer := "b8".toList },
       { id := 2, text := "s9".toList, sample_answer := "b9".toList }],
    free_recall := [{ id := 1, text := "r9".toList, sample_answer := "c9".toList }],
    total_questions := 7 }

/-- The unclosed-section recovery example from the specification. -/
def sectionsDemo : List Char := "<section_1>A<section_2>B</section_2>".toList

/-- Options `a`..`d`, all with non-empty content. -/
def optsABCD : List (List Char × List Char) :=
  ([("a", "Paris"), ("b", "Rome"), ("c", "Berlin"), ("d", "Madrid")] :
    List (String × String)).map fun p => (p.1.toList, p.2.toList)

/-- A multiple-choice block with one valid question answered by key `a`. -/
def mcDemoBlock : List Char :=
  ("<question><text>Capital?</text><options><option_a>Paris</option_a>" ++
   "<option_b>Rome</option_b></options><answer>a</answer></question>").toList

/-- A queue state whose queue holds `queueMaxsize` task ids. -/
def fullQueueState : QueueState :=
  { feedback_queue := List.replicate queueMaxsize ("x".toList), task_results := [] }

/-- The empty queue state. -/
def qsEmpty : QueueState := { feedback_queue := [], task_results := [] }

/-- State after enqueuing task `t1` at time 1. -/
def qs1 : QueueState :=
  (create_feedback_task qsEmpty ("t1".toList) 1 ("c".toList) ("T".toList) false).2

/-- State after further enqueuing task `t2` at time 2. -/
def qs2 : QueueState :=
  (create_feedback_task qs1 ("t2".toList) 2 ("c".toList) ("T".toList) false).2

/-- State after further enqueuing task `t3` at time 3. -/
def qs3 : QueueState :=
  (create_feedback_task qs2 ("t3".toList) 3 ("c".toList) ("T".toList) false).2

/-- A true/false question block whose answer token is outside the
affirmative/negative vocabulary. -/
def tfBananaBlock : List Char :=
  "<question><text>Is water wet?</text><answer>banana</answer></question>".toList

/-- A challenge-feedback response whose `ready_to_submit` token is outside
the vocabulary. -/
def feedbackAnyTokenResponse : List Char :=
  ("<challenge_feedback><delivered>yes</delivered><strengths>s</strengths>" ++
   "<areas_for_improvement>a</areas_for_improvement><suggestions>g</suggestions>" ++
   "<overall_assessment>o</overall_assessment><ready_to_submit>quizas</ready_to_submit>" ++
   "</challenge_feedback>").toList

/-- An evaluation response whose `is_correct` token is outside the
vocabulary. -/
def maybeEvalResponse : List Char :=
  "<is_correct>maybe</is_correct><feedback>hmm</feedback>".toList

/-- An evaluation response with the Spanish affirmative token. -/
def siEvalResponse : List Char :=
  "<is_correct> Sí </is_correct><feedback> bien </feedback>".toList

/-- The inner content of the `challenge_feedback` block of
`feedbackAnyTokenResponse`. -/
def feedbackInnerContent : List Char :=
  ("<delivered>yes</delivered><strengths>s</strengths>" ++
   "<areas_for_improvement>a</areas_for_improvement><suggestions>g</suggestions>" ++
   "<overall_assessment>o</overall_assessment><ready_to_submit>quizas</ready_to_submit>").toList

/-- A response with exactly one valid true/false question. -/
def questionsDemoResponse : List Char :=
  "<true_false><question><text>T</text><answer>true</answer></question></true_false>".toList

/-- The parse of `questionsDemoResponse`. -/
def questionsDemoResult : QuestionsResult :=
  { multiple_choice := [], true_false := [{ id := 1, text := "T".toList, correct_answer := true }],
    fill_blank := [], short_answer := [], free_recall := [], total_questions := 1 }

/-- Concrete extractor inputs: canonical tag, its typo variant, and the
surrounding text pieces. -/
def c4Tag : List Char := "notes".toList

/-- The typo variant of `c4Tag` listed in `COMMON_TAG_TYPOS`. -/
def c4Typo : List Char := "nots".toList

/-- Text before the open tag. -/
def c4Pre : List Char := "x ".toList

/-- Inner text of the tag pair. -/
def c4Inner : List Char := " hello world ".toList

/-- Text after the close tag. -/
def c4Post : List Char := " y".toList

end ConcreteInputs
set_option maxRecDepth 10000
set_option autoImplicit false

lemma findSub_eq_some (needle : List Char) :
    ∀ (hay : List Char) (i : Nat),
      needle.isPrefixOf (hay.drop i) = true →
      (∀ j, j < i → needle.isPrefixOf (hay.drop j) = false) →
      findSub needle hay = some i := by
  intro hay
  induction hay with
  | nil =>
    intro i hp hm
    cases i with
    | zero => simp only [List.drop_nil] at hp; simp [findSub, hp]
    | succ n =>
      exfalso
      have h0 := hm 0 (Nat.succ_pos n)
      simp only [List.drop_nil] at hp h0
      rw [hp] at h0
      exact absurd h0 (by simp)
  | cons c rest ih =>
    intro i hp hm
    cases i with
    | zero => simp only [List.drop_zero] at hp; simp [findSub, hp]
    | succ n =>
      have h0 := hm 0 (Nat.succ_pos n)
      simp only [List.drop_zero] at h0
      have hrec := ih n (by simpa using hp)
        (fun j hj => by simpa using hm (j + 1) (by omega))
      simp [findSub, h0, hrec]

lemma containsSub_of_prefix (needle : List Char) :
    ∀ (hay : List Char) (i : Nat),
      needle.isPrefixOf (hay.drop i) = true → containsSub needle hay = true := by
  intro hay
  induction hay with
  | nil =>
    intro i hp
    simp only [List.drop_nil] at hp
    simp [containsSub, findSub, hp]
  | cons c rest ih =>
    intro i hp
    cases i with
    | zero =>
      simp only [List.drop_zero] at hp
      simp [containsSub, findSub, hp]
    | succ n =>
      by_cases h0 : needle.isPrefixOf (c :: rest) = true
      · simp [containsSub, findSub, h0]
      · have h0' : needle.isPrefixOf (c :: rest) = false := by
          cases h : needle.isPrefixOf (c :: rest) with
          | false => rfl
          | true => exact absurd h h0
        have := ih n (by simpa using hp)
        simp only [containsSub, findSub, h0', if_false, Bool.false_eq_true] at this ⊢
        simpa using this

lemma containsSub_append (needle s t : List Char) :
    containsSub needle (s ++ needle ++ t) = true := by
  apply containsSub_of_prefix needle _ s.length
  rw [List.append_assoc, List.drop_left]
  exact List.isPrefixOf_iff_prefix.mpr (List.prefix_append needle t)

lemma containsSub_exists {needle : List Char} :
    ∀ {hay : List Char}, containsSub needle hay = true →
      ∃ s t, hay = s ++ needle ++ t := by
  intro hay
  induction hay with
  | nil =>
    intro h
    by_cases hn : needle.isPrefixOf ([] : List Char) = true
    · have : needle <+: [] := List.isPrefixOf_iff_prefix.mp hn
      exact ⟨[], [], by simp [List.prefix_nil.mp this]⟩
    · simp only [containsSub, findSub] at h
      rw [if_neg hn] at h
      simp at h
  | cons c rest ih =>
    intro h
    by_cases hn : needle.isPrefixOf (c :: rest) = true
    · obtain ⟨t, ht⟩ := List.isPrefixOf_iff_prefix.mp hn
      exact ⟨[], t, by simp [ht]⟩
    · have h' : containsSub needle rest = true := by
        simp only [containsSub, findSub] at h
        rw [if_neg hn] at h
        simpa [containsSub] using h
      obtain ⟨s, t, hst⟩ := ih h'
      exact ⟨c :: s, t, by simp [hst]⟩

lemma containsSub_map {needle hay : List Char} (f : Char → Char)
    (h : containsSub needle hay = true) :
    containsSub (needle.map f) (hay.map f) = true := by
  obtain ⟨s, t, hst⟩ := containsSub_exists h
  subst hst
  have hmap : (s ++ needle ++ t).map f = s.map f ++ needle.map f ++ t.map f := by
    simp
  rw [hmap]
  exact containsSub_append (needle.map f) (s.map f) (t.map f)

lemma findSub_eq_none_of_not_contains {needle hay : List Char}
    (hc : containsSub needle hay = false) : findSub needle hay = none := by
  cases hfind : findSub needle hay with
  | none => rfl
  | some i => rw [containsSub, hfind] at hc; simp at hc

lemma pyLower_openTagOf (n : List Char) :
    pyLower (openTagOf n) = openTagOf (pyLower n) := by
  simp [pyLower, openTagOf, show Char.toLower '<' = '<' from by decide,
    show Char.toLower '>' = '>' from by decide]

lemma pyLower_closeTagOf (n : List Char) :
    pyLower (closeTagOf n) = closeTagOf (pyLower n) := by
  simp [pyLower, closeTagOf, show Char.toLower '<' = '<' from by decide,
    show Char.toLower '>' = '>' from by decide,
    show Char.toLower '/' = '/' from by decide]

lemma pySlice_middle (A mid B : List Char) :
    pySlice (A ++ mid ++ B) A.length (A.length + mid.length) = mid := by
  have h1 : A.length + mid.length = (A ++ mid).length := by simp
  simp only [pySlice]
  rw [show A ++ mid ++ B = (A ++ mid) ++ B from rfl, h1, List.take_left, List.drop_left]

lemma isPrefixOf_self_append (x y : List Char) : x.isPrefixOf (x ++ y) = true :=
  List.isPrefixOf_iff_prefix.mpr (List.prefix_append x y)

lemma tp_exact_pair (tag pre inner post : List Char)
    (hOpen : ∀ j, j < pre.length →
      (openTagOf tag).isPrefixOf
        ((pre ++ openTagOf tag ++ inner ++ closeTagOf tag ++ post).drop j) = false)
    (hClose : ∀ j, j < pre.length + (openTagOf tag).length + inner.length →
      (closeTagOf tag).isPrefixOf
        ((pre ++ openTagOf tag ++ inner ++ closeTagOf tag ++ post).drop j) = false)
    (hInner : pyStrip inner ≠ []) :
    TutorParsers.parse_simple_xml_tag (pre ++ openTagOf tag ++ inner ++ closeTagOf tag ++ post)
      tag = some (pyStrip inner) := by
  have hfO : findSub (openTagOf tag)
      (pre ++ openTagOf tag ++ inner ++ closeTagOf tag ++ post) = some pre.length := by
    apply findSub_eq_some _ _ _ _ hOpen
    have h : pre ++ openTagOf tag ++ inner ++ closeTagOf tag ++ post
        = pre ++ (openTagOf tag ++ (inner ++ (closeTagOf tag ++ post))) := by
      simp [List.append_assoc]
    rw [h, List.drop_left]
    exact isPrefixOf_self_append _ _
  have hfC : findSub (closeTagOf tag)
      (pre ++ openTagOf tag ++ inner ++ closeTagOf tag ++ post)
      = some (pre.length + (openTagOf tag).length + inner.length) := by
    apply findSub_eq_some _ _ _ _ hClose
    have h : pre ++ openTagOf tag ++ inner ++ closeTagOf tag ++ post
        = (pre ++ openTagOf tag ++ inner) ++ (closeTagOf tag ++ post) := by
      simp [List.append_assoc]
    have hlen : pre.length + (openTagOf tag).length + inner.length
        = (pre ++ openTagOf tag ++ inner).length := by simp; omega
    rw [h, hlen, List.drop_left]
    exact isPrefixOf_self_append _ _
  have hslice : pySlice (pre ++ openTagOf tag ++ inner ++ closeTagOf tag ++ post)
      (pre.length + (openTagOf tag).length)
      (pre.length + (openTagOf tag).length + inner.length) = inner := by
    have h : pre ++ openTagOf tag ++ inner ++ closeTagOf tag ++ post
        = (pre ++ openTagOf tag) ++ inner ++ (closeTagOf tag ++ post) := by
      simp [List.append_assoc]
    have hl : pre.length + (openTagOf tag).length = (pre ++ openTagOf tag).length := by simp
    rw [h, hl]
    exact pySlice_middle _ _ _
  simp only [TutorParsers.parse_simple_xml_tag, hfO, hfC, hslice, if_neg hInner]

lemma findTypoMatch_eq (low target t : List Char) :
    ∀ table : List (List Char × List Char),
      (t, target) ∈ table →
      containsSub (openTagOf t) low = true →
      (∀ p ∈ table, p.2 = target → p.1 ≠ t → containsSub (openTagOf p.1) low = false) →
      TutorParsers.findTypoMatch target low table = some t := by
  intro table
  induction table with
  | nil => intro h; simp at h
  | cons hd rest ih =>
    intro hmem hc hother
    cases hd with
    | mk typo correct =>
      rw [TutorParsers.findTypoMatch]
      by_cases hcond : correct = target ∧ containsSub (openTagOf typo) low = true
      · have heq : typo = t := by
          by_contra hne
          have hfalse := hother (typo, correct) (List.mem_cons_self _ _) hcond.1 hne
          rw [hcond.2] at hfalse
          exact absurd hfalse (by simp)
        rw [if_pos hcond, heq]
      · rw [if_neg hcond]
        have hmem' : (t, target) ∈ rest := by
          rcases List.mem_cons.mp hmem with heq | hmemr
          · exfalso
            have h1 : t = typo := congrArg Prod.fst heq
            have h2 : target = correct := congrArg Prod.snd heq
            exact hcond ⟨h2.symm, h1 ▸ hc⟩
          · exact hmemr
        exact ih hmem' hc (fun p hp => hother p (List.mem_cons_of_mem _ hp))

lemma find_best_tag_match_typo (response_str target_tag t : List Char)
    (hNoCanon : containsSub (openTagOf target_tag) (pyLower response_str) = false)
    (htm : TutorParsers.findTypoMatch (pyLower target_tag) (pyLower response_str)
      TutorParsers.COMMON_TAG_TYPOS = some t) :
    TutorParsers.find_best_tag_match response_str target_tag
      = some (t, some TutorParsers.CorrectionKind.typo) := by
  rw [TutorParsers.find_best_tag_match]
  rw [if_neg (by rw [hNoCanon]; simp)]
  rw [htm]

lemma tp_typo_pair (target t pre inner post : List Char)
    (htab : (t, target) ∈ TutorParsers.COMMON_TAG_TYPOS)
    (htlow : pyLower t = t) (htarglow : pyLower target = target)
    (hOpen : ∀ j, j < pre.length →
      (openTagOf t).isPrefixOf
        ((pre ++ openTagOf t ++ inner ++ closeTagOf t ++ post).drop j) = false)
    (hClose : ∀ j, j < pre.length + (openTagOf t).length + inner.length →
      (closeTagOf t).isPrefixOf
        ((pre ++ openTagOf t ++ inner ++ closeTagOf t ++ post).drop j) = false)
    (hNoCanon : containsSub (openTagOf target)
      (pyLower (pre ++ openTagOf t ++ inner ++ closeTagOf t ++ post)) = false)
    (hOnly : ∀ p ∈ TutorParsers.COMMON_TAG_TYPOS, p.2 = target → p.1 ≠ t →
      containsSub (openTagOf p.1)
        (pyLower (pre ++ openTagOf t ++ inner ++ closeTagOf t ++ post)) = false)
    (hInner : pyStrip inner ≠ []) :
    TutorParsers.parse_simple_xml_tag (pre ++ openTagOf t ++ inner ++ closeTagOf t ++ post)
      target = some (pyStrip inner) := by
  have hncontain : containsSub (openTagOf target)
      (pre ++ openTagOf t ++ inner ++ closeTagOf t ++ post) = false := by
    cases h : containsSub (openTagOf target)
        (pre ++ openTagOf t ++ inner ++ closeTagOf t ++ post) with
    | false => rfl
    | true =>
      exfalso
      have hm := containsSub_map Char.toLower h
      have hml : containsSub (pyLower (openTagOf target))
          (pyLower (pre ++ openTagOf t ++ inner ++ closeTagOf t ++ post)) = true := hm
      rw [pyLower_openTagOf, htarglow, hNoCanon] at hml
      exact absurd hml (by simp)
  have hfO : findSub (openTagOf target)
      (pre ++ openTagOf t ++ inner ++ closeTagOf t ++ post) = none :=
    findSub_eq_none_of_not_contains hncontain
  have hctypo : containsSub (openTagOf t)
      (pyLower (pre ++ openTagOf t ++ inner ++ closeTagOf t ++ post)) = true := by
    have h1 : containsSub (openTagOf t)
        (pre ++ openTagOf t ++ inner ++ closeTagOf t ++ post) = true := by
      have h : pre ++ openTagOf t ++ inner ++ closeTagOf t ++ post
          = pre ++ openTagOf t ++ (inner ++ (closeTagOf t ++ post)) := by
        simp [List.append_assoc]
      rw [h]
      exact containsSub_append _ _ _
    have hm := containsSub_map Char.toLower h1
    have hml : containsSub (pyLower (openTagOf t))
        (pyLower (pre ++ openTagOf t ++ inner ++ closeTagOf t ++ post)) = true := hm
    rwa [pyLower_openTagOf, htlow] at hml
  have htm : TutorParsers.findTypoMatch (pyLower target)
      (pyLower (pre ++ openTagOf t ++ inner ++ closeTagOf t ++ post))
      TutorParsers.COMMON_TAG_TYPOS = some t := by
    rw [htarglow]
    exact findTypoMatch_eq _ _ _ _ htab hctypo hOnly
  have hbest := find_best_tag_match_typo
    (pre ++ openTagOf t ++ inner ++ closeTagOf t ++ post) target t hNoCanon htm
  have hfOt : findSub (openTagOf t)
      (pre ++ openTagOf t ++ inner ++ closeTagOf t ++ post) = some pre.length := by
    apply findSub_eq_some _ _ _ _ hOpen
    have h : pre ++ openTagOf t ++ inner ++ closeTagOf t ++ post
        = pre ++ (openTagOf t ++ (inner ++ (closeTagOf t ++ post))) := by
      simp [List.append_assoc]
    rw [h, List.drop_left]
    exact isPrefixOf_self_append _ _
  have hfCt : findSub (closeTagOf t)
      (pre ++ openTagOf t ++ inner ++ closeTagOf t ++ post)
      = some (pre.length + (openTagOf t).length + inner.length) := by
    apply findSub_eq_some _ _ _ _ hClose
    have h : pre ++ openTagOf t ++ inner ++ closeTagOf t ++ post
        = (pre ++ openTagOf t ++ inner) ++ (closeTagOf t ++ post) := by
      simp [List.append_assoc]
    have hlen : pre.length + (openTagOf t).length + inner.length
        = (pre ++ openTagOf t ++ inner).length := by simp; omega
    rw [h, hlen, List.drop_left]
    exact isPrefixOf_self_append _ _
  have hslice : pySlice (pre ++ openTagOf t ++ inner ++ closeTagOf t ++ post)
      (pre.length + (openTagOf t).length)
      (pre.length + (openTagOf t).length + inner.length) = inner := by
    have h : pre ++ openTagOf t ++ inner ++ closeTagOf t ++ post
        = (pre ++ openTagOf t) ++ inner ++ (closeTagOf t ++ post) := by
      simp [List.append_assoc]
    have hl : pre.length + (openTagOf t).length = (pre ++ openTagOf t).length := by simp
    rw [h, hl]
    exact pySlice_middle _ _ _
  have hextract : TutorParsers.extract_content_with_mismatched_tags
      (pre ++ openTagOf t ++ inner ++ closeTagOf t ++ post) t target = some (pyStrip inner) := by
    simp only [TutorParsers.extract_content_with_mismatched_tags, hfOt, hfCt, hslice,
      if_neg hInner]
  cases hfC : findSub (closeTagOf target)
      (pre ++ openTagOf t ++ inner ++ closeTagOf t ++ post) with
  | none =>
    simp only [TutorParsers.parse_simple_xml_tag, hfO, hfC, hbest, hextract]
  | some e =>
    simp only [TutorParsers.parse_simple_xml_tag, hfO, hfC, hbest, hextract]

/-- C4: for every input text containing a well-formed open/close pair of the
target tag — the pair being the first occurrence of either delimiter, as
captured by the no-earlier-occurrence hypotheses, which also rule out nested
same-name tags — with non-empty trimmed inner text, the tutor-app extractor
returns exactly that inner text trimmed; and when the pair instead uses a
known typo variant of the tag name (the only variant of the tag present,
the canonical open tag being absent), the extractor returns the same
trimmed inner text that the canonical pair yields. -/
theorem extractor_roundtrip_and_typo_tolerance
    (tag typo pre inner post : List Char)
    (htab : (typo, tag) ∈ TutorParsers.COMMON_TAG_TYPOS)
    (htyplow : pyLower typo = typo) (htaglow : pyLower tag = tag)
    (hOpen1 : ∀ j, j < pre.length →
      (openTagOf tag).isPrefixOf
        ((pre ++ openTagOf tag ++ inner ++ closeTagOf tag ++ post).drop j) = false)
    (hClose1 : ∀ j, j < pre.length + (openTagOf tag).length + inner.length →
      (closeTagOf tag).isPrefixOf
        ((pre ++ openTagOf tag ++ inner ++ closeTagOf tag ++ post).drop j) = false)
    (hOpen2 : ∀ j, j < pre.length →
      (openTagOf typo).isPrefixOf
        ((pre ++ openTagOf typo ++ inner ++ closeTagOf typo ++ post).drop j) = false)
    (hClose2 : ∀ j, j < pre.length + (openTagOf typo).length + inner.length →
      (closeTagOf typo).isPrefixOf
        ((pre ++ openTagOf typo ++ inner ++ closeTagOf typo ++ post).drop j) = false)
    (hNoCanon : containsSub (openTagOf tag)
      (pyLower (pre ++ openTagOf typo ++ inner ++ closeTagOf typo ++ post)) = false)
    (hOnly : ∀ p ∈ TutorParsers.COMMON_TAG_TYPOS, p.2 = tag → p.1 ≠ typo →
      containsSub (openTagOf p.1)
        (pyLower (pre ++ openTagOf typo ++ inner ++ closeTagOf typo ++ post)) = false)
    (hInner : pyStrip inner ≠ []) :
    TutorParsers.parse_simple_xml_tag
      (pre ++ openTagOf tag ++ inner ++ closeTagOf tag ++ post) tag
      = some (pyStrip inner) ∧
    TutorParsers.parse_simple_xml_tag
      (pre ++ openTagOf typo ++ inner ++ closeTagOf typo ++ post) tag
      = some (pyStrip inner) :=
  ⟨tp_exact_pair tag pre inner post hOpen1 hClose1 hInner,
   tp_typo_pair tag typo pre inner post htab htyplow htaglow hOpen2 hClose2
     hNoCanon hOnly hInner⟩

/-- Witness for the C4 theorem at the concrete tag `notes`, its typo
variant `nots`, and inner text with surrounding whitespace. -/
theorem extractor_roundtrip_and_typo_tolerance_witness :
    TutorParsers.parse_simple_xml_tag
      (c4Pre ++ openTagOf c4Tag ++ c4Inner ++ closeTagOf c4Tag ++ c4Post) c4Tag
      = some (pyStrip c4Inner) ∧
    TutorParsers.parse_simple_xml_tag
      (c4Pre ++ openTagOf c4Typo ++ c4Inner ++ closeTagOf c4Typo ++ c4Post) c4Tag
      = some (pyStrip c4Inner) :=
  extractor_roundtrip_and_typo_tolerance c4Tag c4Typo c4Pre c4Inner c4Post
    (by decide) (by decide) (by decide) (by decide) (by decide) (by decide)
    (by decide) (by decide) (by decide) (by decide)

lemma buildSectionsAux_nonempty (content : List Char) :
    ∀ (ms : List (Nat × Nat × Nat)) (count : Nat) (s : StudentParsers.Section),
      s ∈ StudentParsers.buildSectionsAux content count ms → s.content ≠ [] := by
  intro ms
  induction ms with
  | nil => intro count s hs; simp [StudentParsers.buildSectionsAux] at hs
  | cons m rest ih =>
    intro count s hs
    simp only [StudentParsers.buildSectionsAux] at hs
    by_cases hc : StudentParsers.sectionContentAt content m.1 m.2.2
        (rest.head?.map fun n => n.2.1) = []
    · rw [if_pos hc] at hs
      exact ih count s hs
    · rw [if_neg hc] at hs
      rcases List.mem_cons.mp hs with heq | hmem
      · rw [heq]; exact hc
      · exact ih (count + 1) s hmem

lemma buildSectionsAux_numbers (content : List Char) :
    ∀ (ms : List (Nat × Nat × Nat)) (count : Nat),
      (StudentParsers.buildSectionsAux content count ms).map (fun s => s.section_number)
        = List.range' (count + 1) (StudentParsers.buildSectionsAux content count ms).length := by
  intro ms
  induction ms with
  | nil => intro count; simp [StudentParsers.buildSectionsAux]
  | cons m rest ih =>
    intro count
    simp only [StudentParsers.buildSectionsAux]
    by_cases hc : StudentParsers.sectionContentAt content m.1 m.2.2
        (rest.head?.map fun n => n.2.1) = []
    · rw [if_pos hc]; exact ih count
    · rw [if_neg hc]
      simp only [List.map_cons, List.length_cons]
      rw [ih (count + 1)]
      rfl

/-- C5: every section returned by the intelligent section parser has
non-empty content, the returned sections are renumbered sequentially
`1..K` in output order, and the specification's concrete example
`<section_1>A<section_2>B</section_2>` yields sections `A` and `B`
numbered 1 and 2 — the unclosed first section recovering its content up to
the next opening tag. -/
theorem sections_nonempty_renumbered_spec (content : List Char) :
    ((StudentParsers._parse_sections_intelligently content).all
      (fun s => !s.content.isEmpty) = true) ∧
    ((StudentParsers._parse_sections_intelligently content).map (fun s => s.section_number)
      = List.range' 1 (StudentParsers._parse_sections_intelligently content).length) ∧
    (StudentParsers._parse_sections_intelligently sectionsDemo
      = [{ section_number := 1, content := "A".toList },
         { section_number := 2, content := "B".toList }]) := by
  refine ⟨?_, ?_, by decide⟩
  · rw [List.all_eq_true]
    intro s hs
    have := buildSectionsAux_nonempty content (StudentParsers.findSectionTags content) 0 s hs
    simpa [List.isEmpty_iff] using this
  · exact buildSectionsAux_numbers content (StudentParsers.findSectionTags content) 0

lemma dictGet_eq_none_of_not_mem (key : List Char) :
    ∀ l : List (List Char × List Char), key ∉ l.map Prod.fst →
      StudentParsers.dictGet key l = none := by
  intro l
  induction l with
  | nil => intro _; rfl
  | cons kv rest ih =>
    intro h
    rw [StudentParsers.dictGet]
    rw [if_neg (by
      intro heq
      exact h (by simp only [List.map_cons, List.mem_cons]; exact Or.inl heq.symm))]
    exact ih (by
      intro hmem
      exact h (by simp only [List.map_cons, List.mem_cons]; exact Or.inr hmem))

lemma parseMcOne_valid {i : Nat} {qc : List Char} {q : StudentParsers.McQuestion}
    (h : StudentParsers.parseMcOne i qc = some q) :
    (StudentParsers._validate_multiple_choice_question q.options q.correct_answer).1 = true := by
  cases ht : StudentParsers.parse_simple_xml_tag qc ("text".toList) with
  | none => simp only [StudentParsers.parseMcOne, ht] at h; exact absurd h (by simp)
  | some t =>
    cases hca : StudentParsers.parse_simple_xml_tag qc ("answer".toList) with
    | none => simp only [StudentParsers.parseMcOne, ht, hca] at h; exact absurd h (by simp)
    | some ca =>
      simp only [StudentParsers.parseMcOne, ht, hca] at h
      split_ifs at h with h1 h2
      · cases h
        exact h2

/-- C6: the multiple-choice validator accepts a record exactly when its
answer key is bound among the options actually present with non-empty
content (for records whose option keys are non-empty strings, as the parser
produces); every record kept by the multiple-choice parser passed the
validator — rejected records are discarded, never auto-corrected; and a
record answering `e` over options `a`..`d` is rejected with the
answer-not-in-options reason. -/
theorem mc_validator_spec (options : List (List Char × List Char))
    (correct_answer content : List Char)
    (hkeys : ([] : List Char) ∉ options.map Prod.fst) :
    ((StudentParsers._validate_multiple_choice_question options correct_answer).1 = true ↔
      ∃ v, StudentParsers.dictGet correct_answer options = some v ∧ v ≠ []) ∧
    ((StudentParsers._parse_multiple_choice_questions content).all
      (fun q => (StudentParsers._validate_multiple_choice_question
        q.options q.correct_answer).1) = true) ∧
    (StudentParsers._validate_multiple_choice_question optsABCD ("e".toList)
      = (false, some StudentParsers.McError.answerNotInOptions)) := by
  refine ⟨?_, ?_, by decide⟩
  · rw [StudentParsers._validate_multiple_choice_question]
    by_cases h1 : options = []
    · subst h1
      simp [StudentParsers.dictGet]
    · rw [if_neg h1]
      by_cases h2 : correct_answer = []
      · subst h2
        rw [if_pos rfl]
        simp [dictGet_eq_none_of_not_mem _ _ hkeys]
      · rw [if_neg h2]
        cases hd : StudentParsers.dictGet correct_answer options with
        | none => simp
        | some v =>
          by_cases hv : v = []
          · simp [hv]
          · simp [hv]
  · rw [List.all_eq_true]
    intro q hq
    rw [StudentParsers._parse_multiple_choice_questions] at hq
    obtain ⟨p, _, hp⟩ := List.mem_filterMap.mp hq
    simpa using parseMcOne_valid hp

/-- Witness for the C6 theorem at options `a`..`d` with the valid answer
key `a` and a block holding one valid question. -/
theorem mc_validator_spec_witness :
    (((StudentParsers._validate_multiple_choice_question optsABCD ("a".toList)).1 = true ↔
      ∃ v, StudentParsers.dictGet ("a".toList) optsABCD = some v ∧ v ≠ []) ∧
    ((StudentParsers._parse_multiple_choice_questions mcDemoBlock).all
      (fun q => (StudentParsers._validate_multiple_choice_question
        q.options q.correct_answer).1) = true) ∧
    (StudentParsers._validate_multiple_choice_question optsABCD ("e".toList)
      = (false, some StudentParsers.McError.answerNotInOptions))) :=
  mc_validator_spec optsABCD ("a".toList) mcDemoBlock (by decide)

/-- C10: the student-app question parser fails (returns `None`) exactly
when no category yields a valid question; otherwise its `total_questions`
field equals the sum of the five category list lengths and is at least 1. -/
theorem parse_questions_failure_and_total_spec (response_str : List Char) :
    (StudentParsers.parse_questions response_str = none ↔
      StudentParsers.mcListOf response_str = [] ∧
      StudentParsers.tfListOf response_str = [] ∧
      StudentParsers.fbListOf response_str = [] ∧
      StudentParsers.saListOf response_str = [] ∧
      StudentParsers.frListOf response_str = []) ∧
    (∀ res, StudentParsers.parse_questions response_str = some res →
      res.total_questions = res.multiple_choice.length + res.true_false.length +
        res.fill_blank.length + res.short_answer.length + res.free_recall.length ∧
      1 ≤ res.total_questions) := by
  constructor
  · rw [StudentParsers.parse_questions]
    by_cases h : (StudentParsers.mcListOf response_str).length +
        (StudentParsers.tfListOf response_str).length +
        (StudentParsers.fbListOf response_str).length +
        (StudentParsers.saListOf response_str).length +
        (StudentParsers.frListOf response_str).length = 0
    · rw [if_pos h]
      simp only [true_iff]
      refine ⟨?_, ?_, ?_, ?_, ?_⟩ <;> rw [← List.length_eq_zero] <;> omega
    · rw [if_neg h]
      simp only [reduceCtorEq, false_iff]
      intro ⟨h1, h2, h3, h4, h5⟩
      exact h (by rw [h1, h2, h3, h4, h5]; rfl)
  · intro res hres
    rw [StudentParsers.parse_questions] at hres
    by_cases h : (StudentParsers.mcListOf response_str).length +
        (StudentParsers.tfListOf response_str).length +
        (StudentParsers.fbListOf response_str).length +
        (StudentParsers.saListOf response_str).length +
        (StudentParsers.frListOf response_str).length = 0
    · rw [if_pos h] at hres
      exact absurd hres (by simp)
    · rw [if_neg h] at hres
      cases hres
      refine ⟨rfl, ?_⟩
      show 1 ≤ (StudentParsers.mcListOf response_str).length +
        (StudentParsers.tfListOf response_str).length +
        (StudentParsers.fbListOf response_str).length +
        (StudentParsers.saListOf response_str).length +
        (StudentParsers.frListOf response_str).length
      omega

/-- Witness for the C10 theorem at a response holding one valid true/false
question. -/
theorem parse_questions_failure_and_total_spec_witness :
    StudentParsers.parse_questions questionsDemoResponse = some questionsDemoResult ∧
    (questionsDemoResult.total_questions
        = questionsDemoResult.multiple_choice.length + questionsDemoResult.true_false.length +
          questionsDemoResult.fill_blank.length + questionsDemoResult.short_answer.length +
          questionsDemoResult.free_recall.length ∧
      1 ≤ questionsDemoResult.total_questions) :=
  ⟨by decide,
   (parse_questions_failure_and_total_spec questionsDemoResponse).2
     questionsDemoResult (by decide)⟩

lemma dictLookup_none_forall {V : Type} {key : List Char} :
    ∀ {l : List (List Char × V)}, FeedbackQueue.dictLookup key l = none →
      ∀ kv ∈ l, kv.1 ≠ key := by
  intro l
  induction l with
  | nil => intro _ kv hkv; simp at hkv
  | cons hd rest ih =>
    intro h kv hkv
    rw [FeedbackQueue.dictLookup] at h
    by_cases heq : hd.1 = key
    · rw [if_pos heq] at h; exact absurd h (by simp)
    · rw [if_neg heq] at h
      rcases List.mem_cons.mp hkv with rfl | hmem
      · exact heq
      · exact ih h kv hmem

/-- C7: enqueuing into a queue at full capacity fails immediately with the
distinct retry-later error, leaves the module state unchanged (the
tentatively registered record for the fresh task id is deleted again), and
the failed task id is not observable through the status query. -/
theorem enqueue_full_rejects_without_mutation
    (st : FeedbackQueue.QueueState) (task_id : List Char) (created_at : Nat)
    (challenge_id challenge_title : List Char) (has_images : Bool)
    (hfull : FeedbackQueue.queueMaxsize ≤ st.feedback_queue.length)
    (hfresh : FeedbackQueue.dictLookup task_id st.task_results = none) :
    (FeedbackQueue.create_feedback_task st task_id created_at challenge_id
        challenge_title has_images).1 = Except.error FeedbackQueue.queueFullMessage ∧
    (FeedbackQueue.create_feedback_task st task_id created_at challenge_id
        challenge_title has_images).2 = st ∧
    FeedbackQueue.get_task_status
      (FeedbackQueue.create_feedback_task st task_id created_at challenge_id
        challenge_title has_images).2 task_id = none := by
  have hdel : ∀ info : FeedbackQueue.TaskInfo,
      FeedbackQueue.dictDel task_id (st.task_results ++ [(task_id, info)])
        = st.task_results := by
    intro info
    rw [FeedbackQueue.dictDel, List.filter_append]
    rw [List.filter_eq_self.mpr (by
      intro kv hkv
      simpa using dictLookup_none_forall hfresh kv hkv)]
    simp
  have hstep : (FeedbackQueue.create_feedback_task st task_id created_at challenge_id
      challenge_title has_images).2 = st := by
    rw [FeedbackQueue.create_feedback_task]
    rw [if_pos hfull]
    simp only [hdel _]
  refine ⟨?_, hstep, ?_⟩
  · rw [FeedbackQueue.create_feedback_task, if_pos hfull]
  · rw [hstep]
    simp only [FeedbackQueue.get_task_status, hfresh]

/-- Witness for the C7 theorem: a queue at its capacity of 100 with an
empty task map rejects a fresh task. -/
theorem enqueue_full_rejects_without_mutation_witness :
    (FeedbackQueue.create_feedback_task fullQueueState ("t".toList) 1 ("c".toList)
        ("T".toList) false).1 = Except.error FeedbackQueue.queueFullMessage ∧
    (FeedbackQueue.create_feedback_task fullQueueState ("t".toList) 1 ("c".toList)
        ("T".toList) false).2 = fullQueueState ∧
    FeedbackQueue.get_task_status
      (FeedbackQueue.create_feedback_task fullQueueState ("t".toList) 1 ("c".toList)
        ("T".toList) false).2 ("t".toList) = none :=
  enqueue_full_rejects_without_mutation fullQueueState ("t".toList) 1 ("c".toList)
    ("T".toList) false (by decide) (by decide)

/-- C8: the status query attaches a queue position only to tasks in the
pending state; a pending task's position is one plus the number of pending
entries created strictly earlier; and for three tasks enqueued in order at
times 1, 2, 3 into an empty state, the reported positions are 1, 2, 3. -/
theorem queue_position_spec :
    (∀ (st : FeedbackQueue.QueueState) (task_id : List Char)
        (view : FeedbackQueue.TaskStatusView),
      FeedbackQueue.get_task_status st task_id = some view →
      view.queue_position ≠ none →
      view.task_info.status = FeedbackQueue.TaskStatus.pending) ∧
    (∀ (st : FeedbackQueue.QueueState) (task_id : List Char)
        (info : FeedbackQueue.TaskInfo),
      FeedbackQueue.dictLookup task_id st.task_results = some info →
      info.status = FeedbackQueue.TaskStatus.pending →
      FeedbackQueue.get_queue_position st task_id
        = 1 + st.task_results.countP (fun p =>
            decide (p.2.status = FeedbackQueue.TaskStatus.pending ∧
              p.2.created_at < info.created_at))) ∧
    ((FeedbackQueue.get_task_status qs3 ("t1".toList)).map (fun v => v.queue_position)
        = some (some 1) ∧
     (FeedbackQueue.get_task_status qs3 ("t2".toList)).map (fun v => v.queue_position)
        = some (some 2) ∧
     (FeedbackQueue.get_task_status qs3 ("t3".toList)).map (fun v => v.queue_position)
        = some (some 3)) := by
  refine ⟨?_, ?_, by decide, by decide, by decide⟩
  · intro st task_id view hview hpos
    rw [FeedbackQueue.get_task_status] at hview
    cases hl : FeedbackQueue.dictLookup task_id st.task_results with
    | none => rw [hl] at hview; exact absurd hview (by simp)
    | some info =>
      simp only [hl] at hview
      by_cases hp : info.status = FeedbackQueue.TaskStatus.pending
      · rw [if_pos hp] at hview
        cases hview
        exact hp
      · rw [if_neg hp] at hview
        cases hview
        exact absurd rfl hpos
  · intro st task_id info hl hp
    simp only [FeedbackQueue.get_queue_position, hl]
    rw [if_neg (by simp [hp])]

/-- Witness for the C8 theorem: the position formula evaluated for the
first of the three enqueued tasks. -/
theorem queue_position_spec_witness :
    FeedbackQueue.get_queue_position qs3 ("t1".toList)
      = 1 + qs3.task_results.countP (fun p =>
          decide (p.2.status = FeedbackQueue.TaskStatus.pending ∧
            p.2.created_at < 1)) :=
  queue_position_spec.2.1 qs3 ("t1".toList)
    { status := .pending, created_at := 1, challenge_id := "c".toList,
      challenge_title := ("T".toList).take 100, has_images := false,
      started_at := none, completed_at := none, result := none, error := none,
      processing_time_seconds := none }
    (by decide) (by decide)

/-- C9 counterexample: the true/false parser accepts a record whose answer
token `banana` is outside the affirmative/negative vocabulary (silently
coercing it to `false`), and the challenge-feedback parser accepts a
`ready_to_submit` token `quizas` outside the vocabulary — so boolean fields
other than the answer-evaluation one are not vocabulary-validated. -/
theorem boolean_vocab_counterexample :
    StudentParsers._parse_true_false_questions tfBananaBlock
      = [{ id := 1, text := "Is water wet?".toList, correct_answer := false }] ∧
    ("banana".toList ∉ StudentParsers.isCorrectVocabulary) ∧
    StudentParsers.parse_challenge_feedback feedbackAnyTokenResponse
      = some { delivered := "yes".toList, strengths := "s".toList,
               areas_for_improvement := "a".toList, suggestions := "g".toList,
               overall_assessment := "o".toList, ready_to_submit := false } ∧
    ("quizas".toList ∉ StudentParsers.isCorrectVocabulary) := by decide

/-- C9 amended: only the answer-evaluation `is_correct` field is validated
against the fixed case-insensitive English/Spanish vocabulary — an
out-of-vocabulary token rejects the record, an accepted record's boolean
comes from the affirmative subset — while the true/false answer and the
challenge-feedback `ready_to_submit` fields are coerced by direct
comparison with `true` resp. `yes`, accepting any token. -/
theorem boolean_field_handling_spec
    (r rc qc fc : List Char) (i : Nat)
    (s t a de stg ar su ov rts : List Char) :
    (StudentParsers.parse_simple_xml_tag r ("is_correct".toList) = some s →
      pyStrip (pyLower s) ∉ StudentParsers.isCorrectVocabulary →
      StudentParsers.parse_answer_evaluation r = none) ∧
    (∀ res, StudentParsers.parse_answer_evaluation r = some res →
      StudentParsers.parse_simple_xml_tag r ("is_correct".toList) = some s →
      pyStrip (pyLower s) ∈ StudentParsers.isCorrectVocabulary ∧
      res.is_correct
        = decide (pyStrip (pyLower s) ∈ StudentParsers.isCorrectAffirmative)) ∧
    (StudentParsers.parse_simple_xml_tag qc ("text".toList) = some t →
      StudentParsers.parse_simple_xml_tag qc ("answer".toList) = some a →
      StudentParsers.parseTfOne i qc
        = some { id := i, text := t,
                 correct_answer := decide (pyLower a = ("true".toList)) }) ∧
    (reSearchBlock ("<challenge_feedback>".toList) ("</challenge_feedback>".toList) rc
        = some fc →
      StudentParsers.parse_simple_xml_tag fc ("delivered".toList) = some de →
      StudentParsers.parse_simple_xml_tag fc ("strengths".toList) = some stg →
      StudentParsers.parse_simple_xml_tag fc ("areas_for_improvement".toList) = some ar →
      StudentParsers.parse_simple_xml_tag fc ("suggestions".toList) = some su →
      StudentParsers.parse_simple_xml_tag fc ("overall_assessment".toList) = some ov →
      StudentParsers.parse_simple_xml_tag fc ("ready_to_submit".toList) = some rts →
      StudentParsers.parse_challenge_feedback rc
        = some { delivered := pyStrip de, strengths := pyStrip stg,
                 areas_for_improvement := pyStrip ar, suggestions := pyStrip su,
                 overall_assessment := pyStrip ov,
                 ready_to_submit := decide (pyStrip (pyLower rts) = ("yes".toList)) }) := by
  refine ⟨?_, ?_, ?_, ?_⟩
  · intro h1 hnv
    rw [StudentParsers.parse_answer_evaluation]
    by_cases hlen : (pyStrip r).length < 10
    · rw [if_pos hlen]
    · rw [if_neg hlen]
      cases hfb : StudentParsers.parse_simple_xml_tag r ("feedback".toList) with
      | none => simp only [h1, hfb]
      | some fb =>
        simp only [h1, hfb]
        rw [if_neg hnv]
  · intro res hres h1
    rw [StudentParsers.parse_answer_evaluation] at hres
    by_cases hlen : (pyStrip r).length < 10
    · rw [if_pos hlen] at hres
      exact absurd hres (by simp)
    · rw [if_neg hlen] at hres
      cases hfb : StudentParsers.parse_simple_xml_tag r ("feedback".toList) with
      | none =>
        simp only [h1, hfb] at hres
        exact absurd hres (by simp)
      | some fb =>
        simp only [h1, hfb] at hres
        by_cases hv : pyStrip (pyLower s) ∈ StudentParsers.isCorrectVocabulary
        · rw [if_pos hv] at hres
          cases hres
          exact ⟨hv, rfl⟩
        · rw [if_neg hv] at hres
          exact absurd hres (by simp)
  · intro h1 h2
    simp only [StudentParsers.parseTfOne, h1, h2]
  · intro hblk h1 h2 h3 h4 h5 h6
    simp only [StudentParsers.parse_challenge_feedback, hblk, h1, h2, h3, h4, h5, h6]

/-- Witness for the C9 amended theorem: a rejected out-of-vocabulary
evaluation, an accepted Spanish affirmative, the accepted `banana`
true/false record, and the accepted `quizas` feedback record. -/
theorem boolean_field_handling_spec_witness :
    StudentParsers.parse_answer_evaluation maybeEvalResponse = none ∧
    (pyStrip (pyLower ("Sí".toList)) ∈ StudentParsers.isCorrectVocabulary ∧
      ({ is_correct := true, feedback := "bien".toList } :
          StudentParsers.AnswerEvaluation).is_correct
        = decide (pyStrip (pyLower ("Sí".toList)) ∈ StudentParsers.isCorrectAffirmative)) ∧
    StudentParsers.parseTfOne 1 tfBananaBlock
      = some { id := 1, text := "Is water wet?".toList,
               correct_answer := decide (pyLower ("banana".toList) = ("true".toList)) } ∧
    StudentParsers.parse_challenge_feedback feedbackAnyTokenResponse
      = some { delivered := pyStrip ("yes".toList), strengths := pyStrip ("s".toList),
               areas_for_improvement := pyStrip ("a".toList),
               suggestions := pyStrip ("g".toList),
               overall_assessment := pyStrip ("o".toList),
               ready_to_submit
                 := decide (pyStrip (pyLower ("quizas".toList)) = ("yes".toList)) } :=
  ⟨(boolean_field_handling_spec maybeEvalResponse [] [] [] 0 ("maybe".toList) [] [] []
      [] [] [] [] []).1 (by decide) (by decide),
   (boolean_field_handling_spec siEvalResponse [] [] [] 0 ("Sí".toList) [] [] []
      [] [] [] [] []).2.1 { is_correct := true, feedback := "bien".toList }
      (by decide) (by decide),
   (boolean_field_handling_spec [] [] tfBananaBlock [] 1 [] ("Is water wet?".toList)
      ("banana".toList) [] [] [] [] [] []).2.2.1 (by decide) (by decide),
   (boolean_field_handling_spec [] feedbackAnyTokenResponse [] feedbackInnerContent 0 []
      [] [] ("yes".toList) ("s".toList) ("a".toList) ("g".toList) ("o".toList)
      ("quizas".toList)).2.2.2 (by decide) (by decide) (by decide) (by decide)
      (by decide) (by decide) (by decide)⟩

lemma appendNumbered_eq {α : Type} (setId : α → Nat → α) :
    ∀ (l : List α) (k b : Nat),
      appendNumbered setId (b + 1) k l = stampIds setId b (l.take k) := by
  intro l
  induction l with
  | nil => intro k b; cases k <;> simp [appendNumbered, stampIds]
  | cons q qs ih =>
    intro k b
    cases k with
    | zero => simp [appendNumbered, stampIds]
    | succ k' =>
      rw [appendNumbered, List.take_succ_cons, stampIds, List.mapIdx_cons]
      have harg : (fun i a => setId a (b + 1 + (i + 1)))
          = (fun i a => setId a (b + 1 + 1 + i)) := by
        funext i a
        congr 1
        omega
      rw [show b + 1 + 0 = b + 1 by omega, harg, ← stampIds, ih k' (b + 1)]

lemma stampIds_length {α : Type} (setId : α → Nat → α) (b : Nat) (l : List α) :
    (stampIds setId b l).length = l.length := by
  simp [stampIds]

open StudentParsers in
/-- C2: merging a later attempt's batch against the deficits computed
before the attempt appends, per category, exactly
`min(deficit, available in new batch)` items — the combined bucket drawing
from `multiple_choice` before `true_false` — taken in batch order with
consecutive sequential ids continuing from the existing count per question
type; categories with zero deficit receive nothing; and for challenges,
merging a batch of 5 into a deficit of 2 appends exactly 2. -/
theorem merge_deficit_min_spec (ex new : QuestionsResult) (ec en : ChallengesResult) :
    ((GenerateQuestions.merge_questions ex new
        (GenerateQuestions.missingCounts ex)).multiple_choice
      = ex.multiple_choice ++ stampIds (fun q i => { q with id := i })
          ex.multiple_choice.length
          (new.multiple_choice.take
            (min (GenerateQuestions.missingCounts ex).multiple_choice_true_false
              new.multiple_choice.length))) ∧
    ((GenerateQuestions.merge_questions ex new
        (GenerateQuestions.missingCounts ex)).true_false
      = ex.true_false ++ stampIds (fun q i => { q with id := i })
          ex.true_false.length
          (new.true_false.take
            (min ((GenerateQuestions.missingCounts ex).multiple_choice_true_false -
                min (GenerateQuestions.missingCounts ex).multiple_choice_true_false
                  new.multiple_choice.length)
              new.true_false.length))) ∧
    ((GenerateQuestions.merge_questions ex new
        (GenerateQuestions.missingCounts ex)).fill_blank
      = ex.fill_blank ++ stampIds (fun q i => { q with id := i })
          ex.fill_blank.length
          (new.fill_blank.take
            (min (GenerateQuestions.missingCounts ex).fill_blank new.fill_blank.length))) ∧
    ((GenerateQuestions.merge_questions ex new
        (GenerateQuestions.missingCounts ex)).short_answer
      = ex.short_answer ++ stampIds (fun q i => { q with id := i })
          ex.short_answer.length
          (new.short_answer.take
            (min (GenerateQuestions.missingCounts ex).short_answer
              new.short_answer.length))) ∧
    ((GenerateQuestions.merge_questions ex new
        (GenerateQuestions.missingCounts ex)).free_recall
      = ex.free_recall ++ stampIds (fun q i => { q with id := i })
          ex.free_recall.length
          (new.free_recall.take
            (min (GenerateQuestions.missingCounts ex).free_recall
              new.free_recall.length))) ∧
    ((GenerateQuestions.merge_questions ex new
          (GenerateQuestions.missingCounts ex)).multiple_choice.length +
        (GenerateQuestions.merge_questions ex new
          (GenerateQuestions.missingCounts ex)).true_false.length
      = ex.multiple_choice.length + ex.true_false.length +
          min (GenerateQuestions.missingCounts ex).multiple_choice_true_false
            (new.multiple_choice.length + new.true_false.length)) ∧
    ((GenerateQuestions.missingCounts ex).multiple_choice_true_false = 0 →
      (GenerateQuestions.merge_questions ex new
          (GenerateQuestions.missingCounts ex)).multiple_choice = ex.multiple_choice ∧
      (GenerateQuestions.merge_questions ex new
          (GenerateQuestions.missingCounts ex)).true_false = ex.true_false) ∧
    ((GenerateQuestions.missingCounts ex).fill_blank = 0 →
      (GenerateQuestions.merge_questions ex new
          (GenerateQuestions.missingCounts ex)).fill_blank = ex.fill_blank) ∧
    ((GenerateQuestions.missingCounts ex).short_answer = 0 →
      (GenerateQuestions.merge_questions ex new
          (GenerateQuestions.missingCounts ex)).short_answer = ex.short_answer) ∧
    ((GenerateQuestions.missingCounts ex).free_recall = 0 →
      (GenerateQuestions.merge_questions ex new
          (GenerateQuestions.missingCounts ex)).free_recall = ex.free_recall) ∧
    ((GenerateChallenges.merge_challenges ec en
        (GenerateChallenges.missingChallenges ec)).challenges
      = ec.challenges ++ stampIds (fun c i => { c with id := i }) ec.challenges.length
          (en.challenges.take
            (min (GenerateChallenges.missingChallenges ec) en.challenges.length))) ∧
    ((GenerateChallenges.merge_challenges ec en
        (GenerateChallenges.missingChallenges ec)).challenges.length
      = ec.challenges.length +
          min (GenerateChallenges.missingChallenges ec) en.challenges.length) ∧
    (GenerateChallenges.missingChallenges ec = 0 →
      GenerateChallenges.merge_challenges ec en
        (GenerateChallenges.missingChallenges ec) = ec) ∧
    ((GenerateChallenges.merge_challenges threeChallengeBatch fiveChallengeBatch
        (GenerateChallenges.missingChallenges threeChallengeBatch)).challenges.length = 5 ∧
      GenerateChallenges.missingChallenges threeChallengeBatch = 2 ∧
      fiveChallengeBatch.challenges.length = 5) := by
  have hr0 : min (GenerateQuestions.missingCounts ex).multiple_choice_true_false
      (3 - (ex.multiple_choice.length + ex.true_false.length))
      = (GenerateQuestions.missingCounts ex).multiple_choice_true_false := by
    simp [GenerateQuestions.missingCounts, GenerateQuestions.currentCounts,
      GenerateQuestions.requirements]
  have hrf : min (GenerateQuestions.missingCounts ex).fill_blank
      (2 - ex.fill_blank.length) = (GenerateQuestions.missingCounts ex).fill_blank := by
    simp [GenerateQuestions.missingCounts, GenerateQuestions.currentCounts,
      GenerateQuestions.requirements]
  have hrs : min (GenerateQuestions.missingCounts ex).short_answer
      (2 - ex.short_answer.length) = (GenerateQuestions.missingCounts ex).short_answer := by
    simp [GenerateQuestions.missingCounts, GenerateQuestions.currentCounts,
      GenerateQuestions.requirements]
  have hrr : min (GenerateQuestions.missingCounts ex).free_recall
      (1 - ex.free_recall.length) = (GenerateQuestions.missingCounts ex).free_recall := by
    simp [GenerateQuestions.missingCounts, GenerateQuestions.currentCounts,
      GenerateQuestions.requirements]
  have hQ1 : (GenerateQuestions.merge_questions ex new
      (GenerateQuestions.missingCounts ex)).multiple_choice
      = ex.multiple_choice ++ stampIds (fun q i => { q with id := i })
          ex.multiple_choice.length
          (new.multiple_choice.take
            (min (GenerateQuestions.missingCounts ex).multiple_choice_true_false
              new.multiple_choice.length)) := by
    simp only [GenerateQuestions.merge_questions, hr0, appendNumbered_eq]
  have hQ2 : (GenerateQuestions.merge_questions ex new
      (GenerateQuestions.missingCounts ex)).true_false
      = ex.true_false ++ stampIds (fun q i => { q with id := i })
          ex.true_false.length
          (new.true_false.take
            (min ((GenerateQuestions.missingCounts ex).multiple_choice_true_false -
                min (GenerateQuestions.missingCounts ex).multiple_choice_true_false
                  new.multiple_choice.length)
              new.true_false.length)) := by
    simp only [GenerateQuestions.merge_questions, hr0, appendNumbered_eq]
  have hQ3 : (GenerateQuestions.merge_questions ex new
      (GenerateQuestions.missingCounts ex)).fill_blank
      = ex.fill_blank ++ stampIds (fun q i => { q with id := i })
          ex.fill_blank.length
          (new.fill_blank.take
            (min (GenerateQuestions.missingCounts ex).fill_blank
              new.fill_blank.length)) := by
    simp only [GenerateQuestions.merge_questions, hrf, appendNumbered_eq]
  have hQ4 : (GenerateQuestions.merge_questions ex new
      (GenerateQuestions.missingCounts ex)).short_answer
      = ex.short_answer ++ stampIds (fun q i => { q with id := i })
          ex.short_answer.length
          (new.short_answer.take
            (min (GenerateQuestions.missingCounts ex).short_answer
              new.short_answer.length)) := by
    simp only [GenerateQuestions.merge_questions, hrs, appendNumbered_eq]
  have hQ5 : (GenerateQuestions.merge_questions ex new
      (GenerateQuestions.missingCounts ex)).free_recall
      = ex.free_recall ++ stampIds (fun q i => { q with id := i })
          ex.free_recall.length
          (new.free_recall.take
            (min (GenerateQuestions.missingCounts ex).free_recall
              new.free_recall.length)) := by
    simp only [GenerateQuestions.merge_questions, hrr, appendNumbered_eq]
  have hCH1 : (GenerateChallenges.merge_challenges ec en
      (GenerateChallenges.missingChallenges ec)).challenges
      = ec.challenges ++ stampIds (fun c i => { c with id := i }) ec.challenges.length
          (en.challenges.take
            (min (GenerateChallenges.missingChallenges ec) en.challenges.length)) := by
    rw [GenerateChallenges.merge_challenges]
    by_cases h0 : GenerateChallenges.missingChallenges ec = 0
    · rw [if_pos h0, h0]
      simp [stampIds]
    · rw [if_neg h0]
      simp only [appendNumbered_eq]
  refine ⟨hQ1, hQ2, hQ3, hQ4, hQ5, ?_, ?_, ?_, ?_, ?_, hCH1, ?_, ?_, by decide⟩
  · rw [hQ1, hQ2]
    simp only [List.length_append, stampIds_length, List.length_take]
    omega
  · intro h0
    rw [hQ1, hQ2, h0]
    simp [stampIds]
  · intro h0
    rw [hQ3, h0]
    simp [stampIds]
  · intro h0
    rw [hQ4, h0]
    simp [stampIds]
  · intro h0
    rw [hQ5, h0]
    simp [stampIds]
  · rw [hCH1]
    simp only [List.length_append, stampIds_length, List.length_take]
    omega
  · intro h0
    rw [GenerateChallenges.merge_challenges, if_pos h0]

/-- Witness for the C2 theorem: a concrete accumulator with a full
fill-blank bucket receives nothing there, the combined bucket grows by
exactly its deficit, and a zero-deficit challenge merge is the identity. -/
theorem merge_deficit_min_spec_witness :
    (GenerateQuestions.merge_questions mergeExBatch mergeNewBatch
        (GenerateQuestions.missingCounts mergeExBatch)).fill_blank
      = mergeExBatch.fill_blank ∧
    GenerateChallenges.merge_challenges fiveChallengeBatch fiveChallengeBatch
        (GenerateChallenges.missingChallenges fiveChallengeBatch) = fiveChallengeBatch ∧
    ((GenerateQuestions.merge_questions mergeExBatch mergeNewBatch
          (GenerateQuestions.missingCounts mergeExBatch)).multiple_choice.length +
        (GenerateQuestions.merge_questions mergeExBatch mergeNewBatch
          (GenerateQuestions.missingCounts mergeExBatch)).true_false.length
      = mergeExBatch.multiple_choice.length + mergeExBatch.true_false.length +
          min (GenerateQuestions.missingCounts mergeExBatch).multiple_choice_true_false
            (mergeNewBatch.multiple_choice.length + mergeNewBatch.true_false.length)) :=
  ⟨(merge_deficit_min_spec mergeExBatch mergeNewBatch threeChallengeBatch
      fiveChallengeBatch).2.2.2.2.2.2.2.1 (by decide),
   (merge_deficit_min_spec mergeExBatch mergeNewBatch fiveChallengeBatch
      fiveChallengeBatch).2.2.2.2.2.2.2.2.2.2.2.2.1 (by decide),
   (merge_deficit_min_spec mergeExBatch mergeNewBatch threeChallengeBatch
      fiveChallengeBatch).2.2.2.2.2.1⟩

lemma merge_questions_within (f new : StudentParsers.QuestionsResult) (m : GenerateQuestions.ReqCounts)
    (h : GenerateQuestions.withinQuota f) :
    GenerateQuestions.withinQuota (GenerateQuestions.merge_questions f new m) := by
  obtain ⟨ha, hb, hc, hd⟩ := h
  simp only [GenerateQuestions.withinQuota, GenerateQuestions.currentCounts,
    GenerateQuestions.requirements] at ha hb hc hd ⊢
  simp only [GenerateQuestions.merge_questions, appendNumbered_eq, List.length_append,
    stampIds_length, List.length_take]
  refine ⟨?_, ?_, ?_, ?_⟩ <;> omega

lemma merge_questions_consistent (f new : StudentParsers.QuestionsResult)
    (m : GenerateQuestions.ReqCounts) :
    GenerateQuestions.totalConsistent (GenerateQuestions.merge_questions f new m) := by
  simp only [GenerateQuestions.totalConsistent, GenerateQuestions.merge_questions]

lemma merge_challenges_within (f new : StudentParsers.ChallengesResult)
    (h : GenerateChallenges.withinQuota f) :
    GenerateChallenges.withinQuota
      (GenerateChallenges.merge_challenges f new (GenerateChallenges.missingChallenges f)) := by
  simp only [GenerateChallenges.withinQuota] at h ⊢
  rw [GenerateChallenges.merge_challenges]
  by_cases h0 : GenerateChallenges.missingChallenges f = 0
  · rw [if_pos h0]; exact h
  · rw [if_neg h0]
    simp only [GenerateChallenges.missingChallenges] at h0 ⊢
    simp only [appendNumbered_eq, List.length_append, stampIds_length, List.length_take]
    omega

lemma merge_challenges_consistent (f new : StudentParsers.ChallengesResult)
    (h : GenerateChallenges.totalConsistent f) :
    GenerateChallenges.totalConsistent
      (GenerateChallenges.merge_challenges f new (GenerateChallenges.missingChallenges f)) := by
  rw [GenerateChallenges.merge_challenges]
  by_cases h0 : GenerateChallenges.missingChallenges f = 0
  · rw [if_pos h0]; exact h
  · rw [if_neg h0]
    simp [GenerateChallenges.totalConsistent]

lemma qSessionLoop_invariant (P : StudentParsers.QuestionsResult → Prop)
    (hmerge : ∀ f new, P f →
      P (GenerateQuestions.merge_questions f new (GenerateQuestions.missingCounts f))) :
    ∀ (rest : List (Option StudentParsers.QuestionsResult)) (f r : StudentParsers.QuestionsResult),
      P f → GenerateQuestions.sessionLoop f rest = some r → P r := by
  intro rest
  induction rest with
  | nil =>
    intro f r hP hs
    rw [GenerateQuestions.sessionLoop] at hs
    cases hs
    exact hP
  | cons o rest ih =>
    intro f r hP hs
    cases o with
    | none =>
      rw [GenerateQuestions.sessionLoop] at hs
      exact ih f r hP hs
    | some result =>
      simp only [GenerateQuestions.sessionLoop] at hs
      have hP2 : P (if GenerateQuestions.overgenerated f = true then f
          else GenerateQuestions.merge_questions f result
            (GenerateQuestions.missingCounts f)) := by
        by_cases hov : GenerateQuestions.overgenerated f = true
        · rw [if_pos hov]; exact hP
        · rw [if_neg hov]; exact hmerge f result hP
      generalize hgen : (if GenerateQuestions.overgenerated f = true then f
          else GenerateQuestions.merge_questions f result
            (GenerateQuestions.missingCounts f)) = f2 at hs hP2
      split_ifs at hs <;> first
        | (cases hs; exact hP2)
        | exact ih f2 r hP2 hs

lemma qSessionFirst_invariant (P : StudentParsers.QuestionsResult → Prop)
    (hmerge : ∀ f new, P f →
      P (GenerateQuestions.merge_questions f new (GenerateQuestions.missingCounts f))) :
    ∀ (outs : List (Option StudentParsers.QuestionsResult)) (r : StudentParsers.QuestionsResult),
      GenerateQuestions.sessionFirst outs = some r →
      (∀ R, firstAccepted outs = some R → P R) → P r := by
  intro outs
  induction outs with
  | nil =>
    intro r hs _
    rw [GenerateQuestions.sessionFirst] at hs
    exact absurd hs (by simp)
  | cons o rest ih =>
    intro r hs hfa
    cases o with
    | none =>
      rw [GenerateQuestions.sessionFirst] at hs
      exact ih r hs (fun R hR => hfa R (by rw [firstAccepted]; exact hR))
    | some result =>
      have hPres : P result := hfa result (by rw [firstAccepted])
      simp only [GenerateQuestions.sessionFirst] at hs
      split_ifs at hs <;> first
        | (cases hs; exact hPres)
        | exact qSessionLoop_invariant P hmerge rest result r hPres hs

lemma cSessionLoop_invariant (P : StudentParsers.ChallengesResult → Prop)
    (hmerge : ∀ f new, P f →
      P (GenerateChallenges.merge_challenges f new (GenerateChallenges.missingChallenges f))) :
    ∀ (rest : List (Option StudentParsers.ChallengesResult)) (f r : StudentParsers.ChallengesResult),
      P f → GenerateChallenges.sessionLoop f rest = some r → P r := by
  intro rest
  induction rest with
  | nil =>
    intro f r hP hs
    rw [GenerateChallenges.sessionLoop] at hs
    cases hs
    exact hP
  | cons o rest ih =>
    intro f r hP hs
    cases o with
    | none =>
      rw [GenerateChallenges.sessionLoop] at hs
      exact ih f r hP hs
    | some result =>
      simp only [GenerateChallenges.sessionLoop] at hs
      have hP2 := hmerge f result hP
      split_ifs at hs <;> first
        | (cases hs; exact hP2)
        | exact ih _ r hP2 hs

lemma cSessionFirst_invariant (P : StudentParsers.ChallengesResult → Prop)
    (hmerge : ∀ f new, P f →
      P (GenerateChallenges.merge_challenges f new (GenerateChallenges.missingChallenges f))) :
    ∀ (outs : List (Option StudentParsers.ChallengesResult)) (r : StudentParsers.ChallengesResult),
      GenerateChallenges.sessionFirst outs = some r →
      (∀ R, firstAccepted outs = some R → P R) → P r := by
  intro outs
  induction outs with
  | nil =>
    intro r hs _
    rw [GenerateChallenges.sessionFirst] at hs
    exact absurd hs (by simp)
  | cons o rest ih =>
    intro r hs hfa
    cases o with
    | none =>
      rw [GenerateChallenges.sessionFirst] at hs
      exact ih r hs (fun R hR => hfa R (by rw [firstAccepted]; exact hR))
    | some result =>
      have hPres : P result := hfa result (by rw [firstAccepted])
      simp only [GenerateChallenges.sessionFirst] at hs
      split_ifs at hs <;> first
        | (cases hs; exact hPres)
        | exact cSessionLoop_invariant P hmerge rest result r hPres hs

/-- C1 counterexample: the model's first attempt parses to a batch of four
true/false questions; it becomes the accumulator directly and the session
terminates with the combined multiple-choice/true-false bucket holding 4
items, above its quota of 3. -/
theorem question_session_first_batch_exceeds_quota :
    StudentParsers.parse_questions overTfResponse = some overTfBatch ∧
    GenerateQuestions.runQuestionSession [some overTfBatch] = some overTfBatch ∧
    ¬ GenerateQuestions.withinQuota overTfBatch ∧
    (GenerateQuestions.currentCounts overTfBatch).multiple_choice_true_false = 4 ∧
    GenerateQuestions.requirements.multiple_choice_true_false = 3 := by decide

/-- C1 amended: for every generation session whose first accepted batch is
within each category's quota, the accumulator stays within every quota at
termination — merges never push a category past its ceiling; only a first
attempt adopted as-is can exceed a quota. -/
theorem session_quota_ceiling_of_first_within
    (qouts : List (Option StudentParsers.QuestionsResult))
    (couts : List (Option StudentParsers.ChallengesResult)) :
    (∀ r, GenerateQuestions.runQuestionSession qouts = some r →
      (∀ R, firstAccepted (qouts.take 3) = some R → GenerateQuestions.withinQuota R) →
      GenerateQuestions.withinQuota r) ∧
    (∀ c, GenerateChallenges.runChallengeSession couts = some c →
      (∀ R, firstAccepted (couts.take 3) = some R → GenerateChallenges.withinQuota R) →
      GenerateChallenges.withinQuota c) := by
  constructor
  · intro r hs hfa
    exact qSessionFirst_invariant GenerateQuestions.withinQuota
      (fun f new hf => merge_questions_within f new _ hf) (qouts.take 3) r hs hfa
  · intro c hs hfa
    exact cSessionFirst_invariant GenerateChallenges.withinQuota
      (fun f new hf => merge_challenges_within f new hf) (couts.take 3) c hs hfa

/-- Witness for the C1 amended theorem: single-attempt sessions from
batches that are within quota terminate within quota. -/
theorem session_quota_ceiling_of_first_within_witness :
    GenerateQuestions.withinQuota smallTfBatch ∧
    GenerateChallenges.withinQuota fiveChallengeBatch :=
  ⟨(session_quota_ceiling_of_first_within [some smallTfBatch]
      [some fiveChallengeBatch]).1 smallTfBatch (by decide)
      (fun R hR => by
        have hR' : (some smallTfBatch : Option StudentParsers.QuestionsResult)
            = some R := hR
        injection hR' with h
        exact h ▸ (by decide : GenerateQuestions.withinQuota smallTfBatch)),
   (session_quota_ceiling_of_first_within [some smallTfBatch]
      [some fiveChallengeBatch]).2 fiveChallengeBatch (by decide)
      (fun R hR => by
        have hR' : (some fiveChallengeBatch : Option StudentParsers.ChallengesResult)
            = some R := hR
        injection hR' with h
        exact h ▸ (by decide : GenerateChallenges.withinQuota fiveChallengeBatch))⟩

/-- C3 counterexample: a first attempt parsing to nine questions (four
true/false, the other buckets exact) terminates the session with every
deficit zero yet a total of 9, not 8; and a first challenge attempt of six
items terminates with zero deficit and a total of 6, not 5. -/
theorem success_total_mismatch_counterexample :
    StudentParsers.parse_questions nineQuestionResponse = some nineQuestionBatch ∧
    GenerateQuestions.runQuestionSession [some nineQuestionBatch]
      = some nineQuestionBatch ∧
    GenerateQuestions.noneMissing nineQuestionBatch = true ∧
    nineQuestionBatch.total_questions = 9 ∧
    StudentParsers.parse_challenges sixChallengeResponse = some sixChallengeBatch ∧
    GenerateChallenges.runChallengeSession [some sixChallengeBatch]
      = some sixChallengeBatch ∧
    GenerateChallenges.missingChallenges sixChallengeBatch = 0 ∧
    sixChallengeBatch.total_challenges = 6 := by decide

/-- C3 amended: a session that terminates with every per-category deficit
zero and whose first accepted batch was within quota (with its stored total
consistent with its lists) accumulates exactly the quota sum: 8 questions,
or 5 challenges. -/
theorem success_total_equals_quota_of_within
    (qouts : List (Option StudentParsers.QuestionsResult))
    (couts : List (Option StudentParsers.ChallengesResult)) :
    (∀ r, GenerateQuestions.runQuestionSession qouts = some r →
      (∀ R, firstAccepted (qouts.take 3) = some R →
        GenerateQuestions.withinQuota R ∧ GenerateQuestions.totalConsistent R) →
      GenerateQuestions.noneMissing r = true →
      r.total_questions = 8) ∧
    (∀ c, GenerateChallenges.runChallengeSession couts = some c →
      (∀ R, firstAccepted (couts.take 3) = some R →
        GenerateChallenges.withinQuota R ∧ GenerateChallenges.totalConsistent R) →
      GenerateChallenges.missingChallenges c = 0 →
      c.total_challenges = 5) := by
  constructor
  · intro r hs hfa hnm
    have hP := qSessionFirst_invariant
      (fun q => GenerateQuestions.withinQuota q ∧ GenerateQuestions.totalConsistent q)
      (fun f new hf => ⟨merge_questions_within f new _ hf.1,
        merge_questions_consistent f new _⟩) (qouts.take 3) r hs hfa
    obtain ⟨⟨ha, hb, hc, hd⟩, hcons⟩ := hP
    have hm : GenerateQuestions.missingCounts r = ⟨0, 0, 0, 0⟩ := of_decide_eq_true hnm
    have h1 : (GenerateQuestions.missingCounts r).multiple_choice_true_false = 0 := by
      rw [hm]
    have h2 : (GenerateQuestions.missingCounts r).fill_blank = 0 := by rw [hm]
    have h3 : (GenerateQuestions.missingCounts r).short_answer = 0 := by rw [hm]
    have h4 : (GenerateQuestions.missingCounts r).free_recall = 0 := by rw [hm]
    simp only [GenerateQuestions.missingCounts, GenerateQuestions.currentCounts,
      GenerateQuestions.requirements] at h1 h2 h3 h4
    simp only [GenerateQuestions.withinQuota, GenerateQuestions.currentCounts,
      GenerateQuestions.requirements] at ha hb hc hd
    rw [hcons]
    omega
  · intro c hs hfa hnm
    have hP := cSessionFirst_invariant
      (fun q => GenerateChallenges.withinQuota q ∧ GenerateChallenges.totalConsistent q)
      (fun f new hf => ⟨merge_challenges_within f new hf.1,
        merge_challenges_consistent f new hf.2⟩) (couts.take 3) c hs hfa
    obtain ⟨hw, hcons⟩ := hP
    simp only [GenerateChallenges.missingChallenges] at hnm
    simp only [GenerateChallenges.withinQuota] at hw
    rw [hcons]
    omega

/-- Witness for the C3 amended theorem: an exact first batch of eight
questions and an exact first batch of five challenges. -/
theorem success_total_equals_quota_of_within_witness :
    perfectBatch.total_questions = 8 ∧ fiveChallengeBatch.total_challenges = 5 :=
  ⟨(success_total_equals_quota_of_within [some perfectBatch]
      [some fiveChallengeBatch]).1 perfectBatch (by decide)
      (fun R hR => by
        have hR' : (some perfectBatch : Option StudentParsers.QuestionsResult)
            = some R := hR
        injection hR' with h
        exact h ▸ (by decide : GenerateQuestions.withinQuota perfectBatch ∧
          GenerateQuestions.totalConsistent perfectBatch)) (by decide),
   (success_total_equals_quota_of_within [some perfectBatch]
      [some fiveChallengeBatch]).2 fiveChallengeBatch (by decide)
      (fun R hR => by
        have hR' : (some fiveChallengeBatch : Option StudentParsers.ChallengesResult)
            = some R := hR
        injection hR' with h
        exact h ▸ (by decide : GenerateChallenges.withinQuota fiveChallengeBatch ∧
          GenerateChallenges.totalConsistent fiveChallengeBatch)) (by decide)⟩
